import Mathlib

/-!
Verification development for the prefetch-resolution engine of
`django_queryset_exts` (files `fields.py` and `query.py`).

The embedding models the mutable object world as an explicit heap of
records (`Obj`) indexed by natural numbers.  A record carries its class
identifier, its instance attributes, its `_api_related_cache` mapping and
its `_prefetched_objects_cache`.  Remote records fetched from the API are
allocated on the same heap (the source manipulates them through the same
attribute-style protocol: subscript assignment of the transient
identifier, `pop`, and — for further traversal — attribute access).

The class-level environment (`Schema`) gives, per class id and attribute
name, the classification used by `get_something_can_do_select_api`:
either a remote `APIUUIDDescriptor`-like binding (`ClassAttr.remote`),
some other truthy/falsy class attribute (`ClassAttr.plain`), or nothing.
It also lists the declared model fields used by the
`select_api_related to_attr conflicts with a field` check.

Remote fetch functions are opaque pure functions supplied in the
descriptor (`batch_method` / `single_method`), mirroring the
caller-supplied fetchers of the source.  Every invocation of a fetcher is
recorded in an instrumentation log (`Event`), together with the traversal
events of `select_related_api_objects` (local walk, remote fetch, cached
read, `done_queries` reuse); the log is append-only and otherwise does
not influence control flow.

Modelling notes, all marked at the relevant definition:
* identifier extraction uses the source's default getters
  (`lambda d: d.get('uuid')`);
* the `cached_property` special case of
  `get_something_can_do_select_api` and Django related managers
  (`get_prefetch_queryset`) are not modelled — no claim touches them;
* attribute values that are neither objects, object lists nor `None`
  reaching the local-relation walk are outside the model (the source
  would carry them to the next level, where classification fails).
-/

namespace DQE

/-- Runtime values stored in record attributes and caches.
`odne` marks a single-valued relation whose access raises
`ObjectDoesNotExist` (swallowed by the traversal). `dict` is a
dict-valued local attribute (the source's `get_local_attr_value` falls
through and returns `None` for it). `dictList` is a list of dict-like
partials, represented by their `uuid` projection (the source's default
`local_uuid_getter`). -/
inductive Val where
  | none
  | id (s : String)
  | idList (xs : List String)
  | dictList (xs : List (Option String))
  | dict
  | obj (o : Nat)
  | objList (os : List Nat)
  | odne
deriving DecidableEq

/-- A record on the heap: class id, instance attributes,
`_api_related_cache`, and `_prefetched_objects_cache`. -/
structure Obj where
  cls : Nat
  attrs : List (String × Val)
  cache : List (String × Val)
  pf : List (String × List Nat)
deriving DecidableEq

/-- Instrumentation events: each remote fetch call and each traversal
branch taken by `select_related_api_objects`. -/
inductive Event where
  | batchCall (field : String) (ids : List Val)
  | singleCall (field : String) (idv : Val)
  | remoteFetch (selTo : String)
  | cacheRead (selTo : String)
  | localWalk (selTo : String)
  | reuse (selTo : String)
deriving DecidableEq

/-- The typed errors raised by the engine (`AttributeError` for an
unresolvable segment, the two `ValueError`s of `query.py`, and the
`to_attr` field-conflict `ValueError`). -/
inductive Err where
  | invalidPath
  | unsupportedTerminal
  | ambiguousConfiguration
  | attributeNameConflict
deriving DecidableEq

/-- Machine state: the heap, the instrumentation log, and the
per-invocation `done_queries` / `followed_descriptors` book-keeping of
`select_related_api_objects` (reset at the start of each invocation). -/
structure St where
  heap : List Obj
  log : List Event
  done : List (String × List Nat)
  followed : List Nat
deriving DecidableEq

/-- Results propagate the typed error together with the state at the
raise point (Python mutations performed before a raise persist). -/
abbrev Res (α : Type) : Type := Except (Err × St) α

def addLog (s : St) (e : Event) : St :=
  { s with log := s.log ++ [e] }

def St.obj (s : St) (i : Nat) : Obj :=
  s.heap.getD i ⟨0, [], [], []⟩

def St.setObj (s : St) (i : Nat) (o : Obj) : St :=
  { s with heap := s.heap.set i o }

/-- Association-list lookup (dict read). -/
def assocFind {α : Type} : List (String × α) → String → Option α
  | [], _ => Option.none
  | (k, v) :: rest, key => if k = key then some v else assocFind rest key

/-- Association-list write (dict assignment: replace in place or append). -/
def setA (l : List (String × Val)) (k : String) (v : Val) : List (String × Val) :=
  match l with
  | [] => [(k, v)]
  | (k', v') :: rest => if k' = k then (k, v) :: rest else (k', v') :: setA rest k v

/-- Remove a key from an association list.  A Python dict holds a key at
most once; removing every occurrence models `del`/`pop` on the
dict-shaped lists the machine builds. -/
def removeKey (l : List (String × Val)) (k : String) : List (String × Val) :=
  match l with
  | [] => []
  | (k', v') :: rest =>
    if k' = k then removeKey rest k else (k', v') :: removeKey rest k

/-- Association-list removal returning the removed value (`dict.pop`). -/
def popA (l : List (String × Val)) (k : String) : Option Val × List (String × Val) :=
  (assocFind l k, removeKey l k)

def listJoin {α : Type} : List (List α) → List α
  | [] => []
  | l :: ls => l ++ listJoin ls

/-- Fetched record data: class id and attributes of a freshly fetched
remote record, before allocation on the heap. -/
abbrev RecData := Nat × List (String × Val)

/-- The remote-attribute binding (`APIUUIDDescriptor`): identity (for the
`followed_descriptors` set), field name, and the caller-supplied fetch
functions.  Identifier extraction uses the source's defaults
(`lambda d: d.get('uuid')`). -/
structure Descriptor where
  did : Nat
  field_name : String
  batch_method : Option (List Val → List RecData)
  single_method : Val → RecData

/-- Class-level classification of an attribute name. -/
inductive ClassAttr where
  | remote (d : Descriptor)
  | plain

/-- Class-level environment: attribute classification (what
`getattr(instance.__class__, through_attr, None)` finds) and declared
model fields (what `model._meta.get_field` finds). -/
structure Schema where
  class_attr : Nat → String → Option ClassAttr
  fields : Nat → List String

/-! ### fields.py: APIUUIDDescriptor -/

def temp_identifier_name (d : Descriptor) : String :=
  "_" ++ d.field_name ++ "_identifier"

/-- `set_cache`: write the per-record cache slot keyed by the field name. -/
def set_cache (s : St) (i : Nat) (d : Descriptor) (v : Val) : St :=
  s.setObj i { s.obj i with cache := setA (s.obj i).cache d.field_name v }

/-- `is_cached`: key-presence check on `_api_related_cache`. -/
def is_cached (s : St) (i : Nat) (d : Descriptor) : Bool :=
  (assocFind (s.obj i).cache d.field_name).isSome

/-- `get_cache_value`: `.get` read of the cache slot (`None` if absent). -/
def get_cache_value (s : St) (i : Nat) (d : Descriptor) : Val :=
  (assocFind (s.obj i).cache d.field_name).getD Val.none

/-- Result shape of `get_local_attr_value`: the source returns either a
scalar (string id, or `None`) or a list of identifiers. -/
inductive LocalIds where
  | single (v : Val)
  | many (vs : List Val)
deriving DecidableEq

/-- `get_local_attr_value`: read the raw field value and normalize it.
A list of dicts is projected through the default `local_uuid_getter`;
a plain list is returned as is; a dict falls through (returns `None`);
anything else is returned unchanged. -/
def get_local_attr_value (s : St) (d : Descriptor) (i : Nat) : LocalIds :=
  match (assocFind (s.obj i).attrs d.field_name).getD Val.none with
  | .idList xs => .many (xs.map Val.id)
  | .dictList xs => .many (xs.map (fun o => o.elim Val.none Val.id))
  | .objList os => .many (os.map Val.obj)
  | .dict => .single Val.none
  | v => .single v

/-- Elements contributed by one record to the identifier set:
`uuids.update(value)` for a list, `uuids.add(value)` for a scalar. -/
def LocalIds.toIds : LocalIds → List Val
  | .single v => [v]
  | .many vs => vs

/-- All identifier occurrences across the supplied records, in order. -/
def occurrence_ids (s : St) (d : Descriptor) (instances : List Nat) : List Val :=
  listJoin (instances.map (fun i => (get_local_attr_value s d i).toIds))

/-- Set insertion, keeping first-occurrence order. -/
def insertDistinct (acc : List Val) (v : Val) : List Val :=
  if v ∈ acc then acc else acc ++ [v]

/-- The deduplicated identifier list built by `get_related_api_objects`
(the source accumulates into a Python `set`; the claims only depend on
its set of elements). -/
def collect_uuids (s : St) (d : Descriptor) (instances : List Nat) : List Val :=
  (occurrence_ids s d instances).foldl insertDistinct []

/-- Default `remote_uuid_getter`: `d.get('uuid')`. -/
def remote_uuid_getter (s : St) (r : Nat) : Val :=
  (assocFind (s.obj r).attrs "uuid").getD Val.none

/-- Write one attribute of one heap record. -/
def setAttrV (s : St) (i : Nat) (k : String) (v : Val) : St :=
  s.setObj i { s.obj i with attrs := setA (s.obj i).attrs k v }

/-- Tag a fetched record with the transient correlation key
(`d[self.temp_identifier_name] = ...`). -/
def tagTemp (s : St) (d : Descriptor) (r : Nat) (v : Val) : St :=
  setAttrV s r (temp_identifier_name d) v

/-- Tag every freshly fetched record with
`remote_uuid_getter(d)` (the batch branch of `get_related_api_objects`). -/
def tagAll (d : Descriptor) : List Nat → St → St
  | [], s => s
  | r :: rest, s => tagAll d rest (tagTemp s d r (remote_uuid_getter s r))

/-- One iteration of the `single_method` fallback loop: record the call,
allocate the fetched record, and tag it with the requested identifier. -/
def graoStep (s : St) (d : Descriptor) (u : Val) : Nat × St :=
  let s1 := addLog s (.singleCall d.field_name u)
  let i := s1.heap.length
  let rd := d.single_method u
  let s2 := { s1 with heap := s1.heap ++ [⟨rd.1, rd.2, [], []⟩] }
  (i, tagTemp s2 d i u)

/-- The `single_method` fallback loop over the distinct identifiers. -/
def graoSingles (s : St) (d : Descriptor) : List Val → List Nat × St
  | [] => ([], s)
  | u :: rest =>
    let pr := graoStep s d u
    let pr2 := graoSingles pr.2 d rest
    (pr.1 :: pr2.1, pr2.2)

/-- `get_related_api_objects`: build the distinct identifier list across
all supplied records, call `batch_method` once with it (or loop
`single_method` over it), allocate the fetched records and tag each with
the transient correlation key.  Returns the fetched record list (the
matching closure `rel_obj_attr` and the accessor `get_local_attr_value`
are separate definitions here). -/
def get_related_api_objects (s : St) (d : Descriptor) (instances : List Nat) :
    List Nat × St :=
  let uuids := collect_uuids s d instances
  match d.batch_method with
  | some f =>
    let s1 := addLog s (.batchCall d.field_name uuids)
    let data := f uuids
    let base := s1.heap.length
    let recs := (List.range data.length).map (fun k => base + k)
    let s2 := { s1 with heap := s1.heap ++ data.map (fun rd => Obj.mk rd.1 rd.2 [] []) }
    (recs, tagAll d recs s2)
  | Option.none => graoSingles s d uuids

/-- `rel_obj_attr`: `lambda x: x.pop(self.temp_identifier_name, None)`. -/
def rel_obj_attr (s : St) (d : Descriptor) (r : Nat) : Val × St :=
  let o := s.obj r
  let pr := popA o.attrs (temp_identifier_name d)
  (pr.1.getD Val.none, s.setObj r { o with attrs := pr.2 })

/-- Pop the correlation key of every fetched record
(the `for obj in rel_qs: rel_obj_attr(obj)` loop of `get_value`). -/
def popAllTemps (s : St) (d : Descriptor) : List Nat → St
  | [] => s
  | r :: rest => popAllTemps (rel_obj_attr s d r).2 d rest

/-- `get_value`: cached read, or single-record fetch-and-cache fallback.
The source strips the correlation key of every fetched record, then
caches the whole fetched list (list-valued local attribute) or its first
element (scalar). -/
def get_value (s : St) (d : Descriptor) (i : Nat) : Val × St :=
  if is_cached s i d then (get_cache_value s i d, s)
  else
    let pr := get_related_api_objects s d [i]
    let s1 := popAllTemps pr.2 d pr.1
    let value :=
      match get_local_attr_value s1 d i with
      | .many _ => Val.objList pr.1
      | .single _ =>
        match pr.1 with
        | [] => Val.none
        | r :: _ => Val.obj r
    (value, set_cache s1 i d value)

/-! ### query.py: SelectAPIRelated -/

/-- Split on the lookup separator `"__"` exactly like Python
`str.split("__")`: left to right, non-overlapping. -/
def splitSepAux : List Char → List Char → List (List Char)
  | [], acc => [acc.reverse]
  | '_' :: '_' :: rest, acc => acc.reverse :: splitSepAux rest []
  | c :: rest, acc => splitSepAux rest (c :: acc)

def splitSep (p : String) : List String :=
  (splitSepAux p.toList []).map (fun cs => String.mk cs)

/-- `LOOKUP_SEP.join`. -/
def joinSep : List String → String
  | [] => ""
  | [x] => x
  | x :: rest => x ++ "__" ++ joinSep rest

/-- `SelectAPIRelated`: the path specification. `select_through` is the
raw lookup; `to_attr` is the destination attribute (defaulted to
`'{}_{}'.format(lookup, 'data')` when absent or empty, mirroring Python
truthiness); `select_to` re-joins the lookup's leading segments with the
destination attribute. -/
structure SelectAPIRelated where
  select_through : String
  to_attr : String
  select_to : String
deriving DecidableEq

def SelectAPIRelated.make (lookup : String) (to_attr : Option String) :
    SelectAPIRelated :=
  let ta :=
    match to_attr with
    | Option.none => lookup ++ "_data"
    | some t => if t = "" then lookup ++ "_data" else t
  { select_through := lookup, to_attr := ta,
    select_to := joinSep ((splitSep lookup).dropLast ++ [ta]) }

/-- `__eq__`: equality over `select_to` (the `isinstance` guard always
holds in the typed model). -/
def SelectAPIRelated.eqb (a b : SelectAPIRelated) : Bool :=
  a.select_to == b.select_to

/-- A model of `hash(self.__class__) ^ hash(self.select_to)`: the class
hash is a fixed constant, so the hash is a function of `select_to`. -/
def strHash (s : String) : Nat :=
  s.toList.foldl (fun h c => h * 31 + c.toNat) 7

def SelectAPIRelated.hashb (l : SelectAPIRelated) : Nat :=
  strHash l.select_to

/-- `get_current_select_to`: join of the first `level + 1` parts of
`select_to`. -/
def SelectAPIRelated.get_current_select_to (l : SelectAPIRelated) (level : Nat) :
    String :=
  joinSep ((splitSep l.select_to).take (level + 1))

/-- `get_current_to_attr`: the `select_to` part at this level, and
whether this level is the final write target
(`self.to_attr and level == len(parts) - 1`). -/
def SelectAPIRelated.get_current_to_attr (l : SelectAPIRelated) (level : Nat) :
    String × Bool :=
  let parts := splitSep l.select_to
  (parts.getD level "", decide (l.to_attr ≠ "") && decide (level = parts.length - 1))

/-- `normalize_api_select`: wrap raw lookup strings. -/
def normalize_api_select (lookups : List (String ⊕ SelectAPIRelated)) :
    List SelectAPIRelated :=
  lookups.map (fun lk =>
    match lk with
    | .inl str => SelectAPIRelated.make str Option.none
    | .inr l => l)

/-! ### query.py: select_one_level -/

/-- `rel_obj_cache.setdefault(rel_attr_val, []).append(rel_obj)`. -/
def setdefaultAppend (m : List (Val × List Nat)) (k : Val) (r : Nat) :
    List (Val × List Nat) :=
  match m with
  | [] => [(k, [r])]
  | (k', rs) :: rest =>
    if k' = k then (k', rs ++ [r]) :: rest else (k', rs) :: setdefaultAppend rest k r

/-- `rel_obj_cache.get(key, [])`. -/
def relCacheGet (m : List (Val × List Nat)) (k : Val) : List Nat :=
  match m with
  | [] => []
  | (k', rs) :: rest => if k' = k then rs else relCacheGet rest k

/-- Build the grouping map from correlation key to matched records,
popping each fetched record's transient key in fetch order. -/
def buildRelCacheAux (s : St) (d : Descriptor) (m : List (Val × List Nat)) :
    List Nat → List (Val × List Nat) × St
  | [] => (m, s)
  | r :: rest =>
    let pv := rel_obj_attr s d r
    buildRelCacheAux pv.2 d (setdefaultAppend m pv.1 r) rest

def buildRelCache (s : St) (d : Descriptor) (recs : List Nat) :
    List (Val × List Nat) × St :=
  buildRelCacheAux s d [] recs

/-- The value computed for one record in the `for obj in instances` loop
of `select_one_level`: a list-valued local attribute gives the ordered
first match per identifier (`if val_one: val.append(val_one[0])`),
skipping unmatched; a scalar gives the first match or `None`
(`vals[0] if vals else None`). -/
def assignValCompute (s : St) (d : Descriptor) (m : List (Val × List Nat))
    (i : Nat) : Val :=
  match get_local_attr_value s d i with
  | .many us => Val.objList (us.filterMap (fun u => (relCacheGet m u).head?))
  | .single u =>
    match (relCacheGet m u).head? with
    | some r0 => Val.obj r0
    | Option.none => Val.none

/-- One record's assignment in the `for obj in instances` loop of
`select_one_level`: the computed value is written to the binding cache
and to the destination attribute. -/
def assignOne (s : St) (d : Descriptor) (m : List (Val × List Nat)) (ta : String)
    (i : Nat) : St :=
  setAttrV (set_cache s i d (assignValCompute s d m i)) i ta (assignValCompute s d m i)

def assignLoop (d : Descriptor) (m : List (Val × List Nat)) (ta : String) :
    List Nat → St → St
  | [], s => s
  | i :: rest, s => assignLoop d m ta rest (assignOne s d m ta i)

/-- `select_one_level`: batch-fetch over the entire instance list, build
the correlation grouping, check the `to_attr` field conflict, then assign
and cache per instance.  Returns the full fetched record list (the object
list for the next level). -/
def select_one_level (sc : Schema) (s : St) (instances : List Nat) (d : Descriptor)
    (lk : SelectAPIRelated) (level : Nat) : Res (List Nat × St) :=
  let p := get_related_api_objects s d instances
  let q := buildRelCache p.2 d p.1
  let ta := (lk.get_current_to_attr level).1
  let as_attr := (lk.get_current_to_attr level).2
  if as_attr = true ∧ instances ≠ [] ∧ ta ∈ sc.fields (q.2.obj (instances.headD 0)).cls then
    .error (.attributeNameConflict, q.2)
  else
    .ok (p.1, assignLoop d q.1 ta instances q.2)

/-! ### query.py: get_something_can_do_select_api -/

/-- `get_something_can_do_select_api`: classify `through_attr` on the
record's class.  The `cached_property` special case is not modelled (no
claim touches it): `is_fetched` is the binding's `is_cached`.  Returns
`(something_for_select, attr_found, is_fetched)`; the raised
`ValueError('through_attr must not equal to to_attr')` is the
`ambiguousConfiguration` error. -/
def get_something_can_do_select_api (sc : Schema) (s : St) (i : Nat)
    (through_attr to_attr : String) : Except Err (Option Descriptor × Bool × Bool) :=
  match sc.class_attr (s.obj i).cls through_attr with
  | Option.none =>
    .ok (Option.none, (assocFind (s.obj i).attrs through_attr).isSome, false)
  | some .plain => .ok (Option.none, true, false)
  | some (.remote d) =>
    if through_attr = to_attr then .error .ambiguousConfiguration
    else .ok (some d, true, is_cached s i d)

/-! ### query.py: select_related_api_objects -/

/-- Convert a walked value to the records it contributes to the next
object list: `None` is skipped, a list is flattened, an object is
appended.  Non-object scalar values are outside the model (see the
header note). -/
def walkObjVal : Val → List Nat
  | .obj o => [o]
  | .objList os => os
  | _ => []

/-- Descend one record in the non-fetch branch: read the binding cache
when the segment is a remote binding, else prefer the materialized
prefetch cache, else plain attribute access (`ObjectDoesNotExist` is
swallowed; a missing attribute raises). -/
def walkOne (s : St) (something : Option Descriptor) (through_attr : String)
    (i : Nat) : Except Err (List Nat) :=
  match something with
  | some d => .ok (walkObjVal (get_cache_value s i d))
  | Option.none =>
    match assocFind (s.obj i).pf through_attr with
    | some os => .ok os
    | Option.none =>
      match assocFind (s.obj i).attrs through_attr with
      | Option.none => .error .invalidPath
      | some .odne => .ok []
      | some v => .ok (walkObjVal v)

def walkAll (s : St) (something : Option Descriptor) (through_attr : String) :
    List Nat → Except Err (List Nat)
  | [] => .ok []
  | i :: rest =>
    match walkOne s something through_attr i with
    | .error e => .error e
    | .ok xs =>
      match walkAll s something through_attr rest with
      | .error e => .error e
      | .ok ys => .ok (xs ++ ys)

/-- Outcome of one level of the traversal: `halt` is the
`len(obj_list) == 0` break, `next` carries the object list for the next
level. -/
inductive StepOut where
  | halt (s : St)
  | next (objs : List Nat) (s : St)

/-- Bookkeeping after a successful batched fetch: record the current
prefix in `done_queries` unless the descriptor has already been followed
(`if descriptor not in followed_descriptors`), then add the descriptor to
`followed_descriptors`. -/
def stepFolPost (d : Descriptor) (sel : String) (allRel : List Nat) (s2 : St) : St :=
  let s3 :=
    if d.did ∈ s2.followed then s2
    else { s2 with done := s2.done ++ [(sel, allRel)] }
  if d.did ∈ s3.followed then s3
  else { s3 with followed := s3.followed ++ [d.did] }

/-- One iteration of the `for level, through_attr in enumerate(...)` loop
of `select_related_api_objects`: empty-list break; `done_queries` reuse;
classification; the `AttributeError` / terminal-`ValueError` checks; then
either the batched fetch (recording the prefix unless the descriptor was
already followed) or the per-record walk. -/
def levelStep (sc : Schema) (lk : SelectAPIRelated) (through_attr : String)
    (isLast : Bool) (level : Nat) (objList : List Nat) (s : St) : Res StepOut :=
  match objList with
  | [] => .ok (.halt s)
  | first :: _ =>
    let sel := lk.get_current_select_to level
    match assocFind s.done sel with
    | some cached => .ok (.next cached (addLog s (.reuse sel)))
    | Option.none =>
      let ta := (lk.get_current_to_attr level).1
      match get_something_can_do_select_api sc s first through_attr ta with
      | .error e => .error (e, s)
      | .ok (something, attr_found, is_fetched) =>
        if attr_found = false then .error (.invalidPath, s)
        else if isLast && something.isNone then .error (.unsupportedTerminal, s)
        else
          match something, is_fetched with
          | some d, false =>
            (match select_one_level sc (addLog s (.remoteFetch sel)) objList d lk level with
             | .error es => .error es
             | .ok (allRel, s2) => .ok (.next allRel (stepFolPost d sel allRel s2)))
          | something, _ =>
            let ev :=
              match something with
              | some _ => Event.cacheRead sel
              | Option.none => Event.localWalk sel
            let s1 := addLog s ev
            match walkAll s1 something through_attr objList with
            | .error e => .error (e, s1)
            | .ok objs => .ok (.next objs s1)

/-- Walk the remaining segments of one lookup. -/
def walkLevels (sc : Schema) (lk : SelectAPIRelated) :
    List String → Nat → List Nat → St → Res St
  | [], _, _, s => .ok s
  | t :: rest, level, objList, s =>
    match levelStep sc lk t rest.isEmpty level objList s with
    | .error es => .error es
    | .ok (.halt s') => .ok s'
    | .ok (.next objs s') => walkLevels sc lk rest (level + 1) objs s'

/-- Process one queued lookup: skip when its full destination path is
already in `done_queries`, else walk it from the root records. -/
def processLookup (sc : Schema) (roots : List Nat) (s : St)
    (lk : SelectAPIRelated) : Res St :=
  match assocFind s.done lk.select_to with
  | some _ => .ok s
  | Option.none => walkLevels sc lk (splitSep lk.select_through) 0 roots s

def selectLoop (sc : Schema) (roots : List Nat) :
    List SelectAPIRelated → St → Res St
  | [], s => .ok s
  | lk :: rest, s =>
    match processLookup sc roots s lk with
    | .error es => .error es
    | .ok s' => selectLoop sc roots rest s'

/-- `select_related_api_objects`: no-op on an empty record list;
otherwise process the lookup queue with fresh `done_queries` and
`followed_descriptors`. -/
def select_related_api_objects (sc : Schema) (s : St) (roots : List Nat)
    (lookups : List SelectAPIRelated) : Res St :=
  if roots = [] then .ok s
  else selectLoop sc roots lookups { s with done := [], followed := [] }

/-! ### Observation helpers and specification-side views -/

/-- The heap records referenced by a value. -/
def Val.refs : Val → List Nat
  | .obj o => [o]
  | .objList os => os
  | _ => []

/-- The correlation key carried by a fetched record (the transient
identifier attribute, `None` when absent). -/
def tagKey (s : St) (d : Descriptor) (r : Nat) : Val :=
  (assocFind (s.obj r).attrs (temp_identifier_name d)).getD Val.none

/-- The first fetched record whose correlation key matches an
identifier. -/
def firstMatch (s : St) (d : Descriptor) (recs : List Nat) (u : Val) : Option Nat :=
  recs.find? (fun r => tagKey s d r = u)

/-- The value `select_one_level` assigns to one record, phrased against
the tagged post-fetch state: scalar identifier gives the first match or
`None`; a list of identifiers gives the ordered first match per
position, skipping unmatched identifiers. -/
def assignSpec (s0 s1 : St) (d : Descriptor) (recs : List Nat) (i : Nat) : Val :=
  match get_local_attr_value s0 d i with
  | .many us => Val.objList (us.filterMap (firstMatch s1 d recs))
  | .single u =>
    match firstMatch s1 d recs u with
    | some r0 => Val.obj r0
    | Option.none => Val.none

/-- The log footprint of one `resolveBatch`: exactly one `batch_method`
call with the deduplicated identifier list, or one `single_method` call
per distinct identifier. -/
def fetchTrace (d : Descriptor) (u : List Val) : List Event :=
  match d.batch_method with
  | some _ => [Event.batchCall d.field_name u]
  | Option.none => u.map (Event.singleCall d.field_name)

/-- The object list produced by reading a remote binding's per-record
caches (the no-fetch branch of the traversal). -/
def cacheWalkList (s : St) (d : Descriptor) (objs : List Nat) : List Nat :=
  listJoin (objs.map (fun i => walkObjVal (get_cache_value s i d)))

def stepSt : Res StepOut → St
  | .ok (.halt s) => s
  | .ok (.next _ s) => s
  | .error (_, s) => s

def stepErr : Res StepOut → Option Err
  | .ok _ => Option.none
  | .error (e, _) => some e

def isFetchEvent : Event → Bool
  | .batchCall _ _ => true
  | .singleCall _ _ => true
  | _ => false

def fetchCount (l : List Event) : Nat :=
  (l.filter isFetchEvent).length

def localWalkCount (l : List Event) (sel : String) : Nat :=
  (l.filter (fun e => e = Event.localWalk sel)).length

def resErr : Res St → Option Err
  | .ok _ => Option.none
  | .error (e, _) => some e

def resSt : Res St → St
  | .ok s => s
  | .error (_, s) => s

def resOk : Res St → Bool
  | .ok _ => true
  | .error _ => false

/-- State extractor for `select_one_level` results. -/
def solSt : Res (List Nat × St) → St
  | .ok (_, s) => s
  | .error (_, s) => s

/-! ### Concrete scenarios used by counterexamples and witnesses -/

def c1d : Descriptor := ⟨0, "a", Option.none, fun u => (9, [("uuid", u)])⟩

def c1st : St :=
  ⟨[⟨0, [("a", Val.idList ["u1", "u2", "u1"])], [], []⟩,
    ⟨0, [("a", Val.id "u2")], [], []⟩], [], [], []⟩

def c2dA : Descriptor :=
  ⟨0, "a", some (fun _ => [(2, [("uuid", Val.id "u")])]), fun _ => (2, [])⟩

def c2dB : Descriptor :=
  ⟨1, "b", some (fun _ => [(2, [("uuid", Val.id "v")])]), fun _ => (2, [])⟩

def c2sc : Schema :=
  ⟨fun c t =>
    if c = 0 ∧ t = "y" then some .plain
    else if c = 1 ∧ t = "a" then some (.remote c2dA)
    else if c = 1 ∧ t = "b" then some (.remote c2dB)
    else Option.none,
   fun _ => []⟩

def c2st : St :=
  ⟨[⟨0, [("y", Val.objList [1])], [], []⟩,
    ⟨1, [("a", Val.id "u"), ("b", Val.id "v")], [], []⟩], [], [], []⟩

def c2run : Res St :=
  select_related_api_objects c2sc c2st [0]
    [SelectAPIRelated.make "y__a" Option.none, SelectAPIRelated.make "y__b" Option.none]

def c2wst : St := ⟨[⟨0, [], [], []⟩], [], [("y", [7])], []⟩

def c2wlk : SelectAPIRelated := SelectAPIRelated.make "y__a" Option.none

def c3d : Descriptor :=
  ⟨0, "a", some (fun _ => [(2, [("uuid", Val.id "u")])]), fun _ => (2, [])⟩

def c3sc : Schema :=
  ⟨fun c t => if c = 0 ∧ t = "a" then some (.remote c3d) else Option.none, fun _ => []⟩

def c3st : St :=
  ⟨[⟨0, [("a", Val.id "u")], [("a", Val.none)], []⟩,
    ⟨0, [("a", Val.id "u")], [], []⟩], [], [], []⟩

def c3run : Res St :=
  select_related_api_objects c3sc c3st [0, 1] [SelectAPIRelated.make "a" Option.none]

def c4d : Descriptor :=
  ⟨0, "a",
   some (fun _ => [(9, [("uuid", Val.id "u1")]), (9, [("uuid", Val.id "u2")]),
                   (9, [("uuid", Val.id "u1")])]),
   fun _ => (9, [])⟩

def c4sc : Schema :=
  ⟨fun c t => if c = 0 ∧ t = "a" then some (.remote c4d) else Option.none, fun _ => []⟩

def c4st : St := ⟨[⟨0, [("a", Val.idList ["u1", "u2", "u1"])], [], []⟩], [], [], []⟩

def c4lk : SelectAPIRelated := SelectAPIRelated.make "a" Option.none

def c5d : Descriptor :=
  ⟨0, "a", some (fun _ => [(9, [("uuid", Val.id "u")])]), fun _ => (9, [])⟩

def c5sc : Schema :=
  ⟨fun c t => if c = 0 ∧ t = "a" then some (.remote c5d) else Option.none,
   fun c => if c = 0 then ["name"] else []⟩

def c5st : St := ⟨[⟨0, [("a", Val.id "u")], [], []⟩], [], [], []⟩

def c5lk : SelectAPIRelated := SelectAPIRelated.make "a" (some "name")

def c6dA : Descriptor :=
  ⟨0, "a", some (fun _ => [(9, [("uuid", Val.id "u")])]), fun _ => (9, [])⟩

def c6dB : Descriptor :=
  ⟨1, "b", some (fun _ => [(9, [("uuid", Val.id "v")])]), fun _ => (9, [])⟩

def c6sc : Schema :=
  ⟨fun c t =>
    if c = 0 ∧ t = "a" then some (.remote c6dA)
    else if c = 0 ∧ t = "b" then some (.remote c6dB)
    else Option.none,
   fun _ => []⟩

def c6st : St := ⟨[⟨0, [("a", Val.id "u"), ("b", Val.id "v")], [], []⟩], [], [], []⟩

def c6lkA : SelectAPIRelated := SelectAPIRelated.make "a" (some "t")

def c6lkB : SelectAPIRelated := SelectAPIRelated.make "b" (some "t")

def c6run1 : Res St := select_related_api_objects c6sc c6st [0] [c6lkA, c6lkB]

def c6run2 : Res St :=
  select_related_api_objects c6sc (resSt c6run1) [0] [c6lkA, c6lkB]

def c6wlkB : SelectAPIRelated := SelectAPIRelated.make "b" (some "w")

def c6wrun1 : Res St := select_related_api_objects c6sc c6st [0] [c6lkA, c6wlkB]

def c7sc : Schema :=
  ⟨fun c t => if c = 0 ∧ t = "y" then some .plain else Option.none, fun _ => []⟩

def c7st : St := ⟨[⟨0, [("y", Val.objList [1])], [], []⟩, ⟨1, [], [], []⟩], [], [], []⟩

def c7run : Res St :=
  select_related_api_objects c7sc c7st [0] [SelectAPIRelated.make "y" Option.none]

def c8d : Descriptor := ⟨0, "a", some (fun _ => []), fun _ => (9, [])⟩

def c8sc : Schema :=
  ⟨fun c t => if c = 0 ∧ t = "a" then some (.remote c8d) else Option.none, fun _ => []⟩

def c8st : St := ⟨[⟨0, [("a", Val.id "u")], [], []⟩], [], [], []⟩

def c8lk : SelectAPIRelated := SelectAPIRelated.make "a" (some "a")

def c9sc : Schema := ⟨fun _ _ => Option.none, fun _ => []⟩

def c9lkA : SelectAPIRelated := SelectAPIRelated.make "alpha" (some "t")

def c9lkB : SelectAPIRelated := SelectAPIRelated.make "beta" (some "t")

def c9st : St := ⟨[], [], [("t", [5])], []⟩

def c10d : Descriptor :=
  ⟨0, "a", some (fun _ => [(9, [("uuid", Val.id "u")]), (9, [])]),
   fun u => (9, [("uuid", u)])⟩

def c10sc : Schema :=
  ⟨fun c t => if c = 0 ∧ t = "a" then some (.remote c10d) else Option.none, fun _ => []⟩

def c10st : St := ⟨[⟨0, [("a", Val.id "u")], [], []⟩], [], [], []⟩

def c10lk : SelectAPIRelated := SelectAPIRelated.make "a" Option.none

def c10gd : Descriptor := ⟨0, "a", Option.none, fun u => (9, [("uuid", u)])⟩

def c10gst : St := ⟨[⟨0, [("a", Val.idList ["u1", "u2"])], [], []⟩], [], [], []⟩

/-! ### Basic lemmas: association lists -/

theorem assocFind_setA (l : List (String × Val)) (k key : String) (v : Val) :
    assocFind (setA l k v) key = if k = key then some v else assocFind l key := by
  induction l with
  | nil => by_cases h : k = key <;> simp [setA, assocFind, h]
  | cons p rest ih =>
    obtain ⟨k', v'⟩ := p
    by_cases hk : k' = k
    · subst hk
      by_cases hkey : k' = key <;> simp [setA, assocFind, hkey]
    · by_cases hkey : k' = key
      · subst hkey
        have hne : k ≠ k' := fun h => hk h.symm
        simp [setA, hk, assocFind, hne]
      · simp [setA, hk, assocFind, hkey, ih]

theorem assocFind_removeKey (l : List (String × Val)) (k key : String) :
    assocFind (removeKey l k) key =
      if key = k then Option.none else assocFind l key := by
  induction l with
  | nil => by_cases h : key = k <;> simp [removeKey, assocFind, h]
  | cons p rest ih =>
    obtain ⟨k', v'⟩ := p
    by_cases hk : k' = k
    · by_cases hkey : key = k
      · subst hkey
        simp [removeKey, hk, ih]
      · have hne : ¬ (k = key) := fun h => hkey h.symm
        simp [removeKey, hk, ih, hkey, assocFind, hne]
    · by_cases hkey : k' = key
      · have hne : ¬ (key = k) := by
          rw [← hkey]
          exact fun h => hk h
        simp [removeKey, hk, assocFind, hkey, hne]
      · simp [removeKey, hk, assocFind, hkey, ih]

theorem assocFind_isSome_setA (l : List (String × Val)) (k key : String) (v : Val)
    (h : (assocFind l key).isSome = true) :
    (assocFind (setA l k v) key).isSome = true := by
  rw [assocFind_setA]
  by_cases hk : k = key <;> simp [hk, h]

theorem assocFind_append_left {α : Type} (l1 l2 : List (String × α)) (k : String)
    (v : α) (h : assocFind l1 k = some v) :
    assocFind (l1 ++ l2) k = some v := by
  induction l1 with
  | nil => simp [assocFind] at h
  | cons p rest ih =>
    obtain ⟨k', v'⟩ := p
    by_cases hk : k' = k
    · simp_all [assocFind]
    · simp_all [assocFind]

theorem assocFind_append_right {α : Type} (l1 l2 : List (String × α)) (k : String)
    (h : assocFind l1 k = Option.none) :
    assocFind (l1 ++ l2) k = assocFind l2 k := by
  induction l1 with
  | nil => simp [assocFind]
  | cons p rest ih =>
    obtain ⟨k', v'⟩ := p
    by_cases hk : k' = k
    · simp [assocFind, hk] at h
    · simp_all [assocFind]

/-! ### Basic lemmas: heap access -/

theorem length_setObj (s : St) (i : Nat) (o : Obj) :
    (s.setObj i o).heap.length = s.heap.length := by
  simp [St.setObj]

theorem obj_setObj_self (s : St) (i : Nat) (o : Obj) (h : i < s.heap.length) :
    (s.setObj i o).obj i = o := by
  simp [St.setObj, St.obj, List.getD, List.getElem?_set_self', h]

theorem obj_setObj_ne (s : St) (i j : Nat) (o : Obj) (h : j ≠ i) :
    (s.setObj i o).obj j = s.obj j := by
  simp [St.setObj, St.obj, List.getD, List.getElem?_set_ne (Ne.symm h)]

theorem obj_setObj_oob (s : St) (i j : Nat) (o : Obj) (h : ¬ i < s.heap.length) :
    (s.setObj i o).obj j = s.obj j := by
  have : s.heap.set i o = s.heap := List.set_eq_of_length_le (by omega)
  simp [St.setObj, this, St.obj]

theorem log_setObj (s : St) (i : Nat) (o : Obj) : (s.setObj i o).log = s.log := rfl

theorem done_setObj (s : St) (i : Nat) (o : Obj) : (s.setObj i o).done = s.done := rfl

theorem followed_setObj (s : St) (i : Nat) (o : Obj) :
    (s.setObj i o).followed = s.followed := rfl

theorem obj_heap_append (s : St) (ext : List Obj) (j : Nat) (h : j < s.heap.length) :
    ({ s with heap := s.heap ++ ext } : St).obj j = s.obj j := by
  simp [St.obj, List.getD, List.getElem?_append, h]

/-! ### Frame lemmas: attribute and cache writes -/

theorem length_setAttrV (s : St) (i : Nat) (k : String) (v : Val) :
    (setAttrV s i k v).heap.length = s.heap.length :=
  length_setObj _ _ _

theorem log_setAttrV (s : St) (i : Nat) (k : String) (v : Val) :
    (setAttrV s i k v).log = s.log := rfl

theorem done_setAttrV (s : St) (i : Nat) (k : String) (v : Val) :
    (setAttrV s i k v).done = s.done := rfl

theorem followed_setAttrV (s : St) (i : Nat) (k : String) (v : Val) :
    (setAttrV s i k v).followed = s.followed := rfl

theorem obj_setAttrV_ne (s : St) (i j : Nat) (k : String) (v : Val) (h : j ≠ i) :
    (setAttrV s i k v).obj j = s.obj j := by
  by_cases hi : i < s.heap.length
  · exact obj_setObj_ne _ _ _ _ h
  · exact obj_setObj_oob _ _ _ _ hi

theorem obj_setAttrV_self (s : St) (i : Nat) (k : String) (v : Val)
    (h : i < s.heap.length) :
    (setAttrV s i k v).obj i = { s.obj i with attrs := setA (s.obj i).attrs k v } :=
  obj_setObj_self _ _ _ h

theorem obj_setAttrV_oob (s : St) (i j : Nat) (k : String) (v : Val)
    (h : ¬ i < s.heap.length) :
    (setAttrV s i k v).obj j = s.obj j :=
  obj_setObj_oob _ _ _ _ h

theorem cache_setAttrV (s : St) (i j : Nat) (k : String) (v : Val) :
    ((setAttrV s i k v).obj j).cache = (s.obj j).cache := by
  by_cases hi : i < s.heap.length
  · by_cases hji : j = i
    · subst hji
      rw [obj_setAttrV_self _ _ _ _ hi]
    · rw [obj_setAttrV_ne _ _ _ _ _ hji]
  · rw [obj_setAttrV_oob _ _ _ _ _ hi]

theorem cls_setAttrV (s : St) (i j : Nat) (k : String) (v : Val) :
    ((setAttrV s i k v).obj j).cls = (s.obj j).cls := by
  by_cases hi : i < s.heap.length
  · by_cases hji : j = i
    · subst hji
      rw [obj_setAttrV_self _ _ _ _ hi]
    · rw [obj_setAttrV_ne _ _ _ _ _ hji]
  · rw [obj_setAttrV_oob _ _ _ _ _ hi]

theorem pf_setAttrV (s : St) (i j : Nat) (k : String) (v : Val) :
    ((setAttrV s i k v).obj j).pf = (s.obj j).pf := by
  by_cases hi : i < s.heap.length
  · by_cases hji : j = i
    · subst hji
      rw [obj_setAttrV_self _ _ _ _ hi]
    · rw [obj_setAttrV_ne _ _ _ _ _ hji]
  · rw [obj_setAttrV_oob _ _ _ _ _ hi]

theorem attrs_setAttrV (s : St) (i j : Nat) (k key : String) (v : Val)
    (hk : key ≠ k) :
    assocFind ((setAttrV s i k v).obj j).attrs key = assocFind (s.obj j).attrs key := by
  by_cases hi : i < s.heap.length
  · by_cases hji : j = i
    · subst hji
      rw [obj_setAttrV_self _ _ _ _ hi]
      have : ¬ (k = key) := fun h => hk h.symm
      simp [assocFind_setA, this]
    · rw [obj_setAttrV_ne _ _ _ _ _ hji]
  · rw [obj_setAttrV_oob _ _ _ _ _ hi]

theorem length_set_cache (s : St) (i : Nat) (d : Descriptor) (v : Val) :
    (set_cache s i d v).heap.length = s.heap.length :=
  length_setObj _ _ _

theorem log_set_cache (s : St) (i : Nat) (d : Descriptor) (v : Val) :
    (set_cache s i d v).log = s.log := rfl

theorem done_set_cache (s : St) (i : Nat) (d : Descriptor) (v : Val) :
    (set_cache s i d v).done = s.done := rfl

theorem followed_set_cache (s : St) (i : Nat) (d : Descriptor) (v : Val) :
    (set_cache s i d v).followed = s.followed := rfl

theorem obj_set_cache_ne (s : St) (i j : Nat) (d : Descriptor) (v : Val) (h : j ≠ i) :
    (set_cache s i d v).obj j = s.obj j := by
  by_cases hi : i < s.heap.length
  · exact obj_setObj_ne _ _ _ _ h
  · exact obj_setObj_oob _ _ _ _ hi

theorem obj_set_cache_self (s : St) (i : Nat) (d : Descriptor) (v : Val)
    (h : i < s.heap.length) :
    (set_cache s i d v).obj i
      = { s.obj i with cache := setA (s.obj i).cache d.field_name v } :=
  obj_setObj_self _ _ _ h

theorem obj_set_cache_oob (s : St) (i j : Nat) (d : Descriptor) (v : Val)
    (h : ¬ i < s.heap.length) :
    (set_cache s i d v).obj j = s.obj j :=
  obj_setObj_oob _ _ _ _ h

theorem attrs_set_cache (s : St) (i j : Nat) (d : Descriptor) (v : Val) :
    ((set_cache s i d v).obj j).attrs = (s.obj j).attrs := by
  by_cases hi : i < s.heap.length
  · by_cases hji : j = i
    · subst hji
      rw [obj_set_cache_self _ _ _ _ hi]
    · rw [obj_set_cache_ne _ _ _ _ _ hji]
  · rw [obj_set_cache_oob _ _ _ _ _ hi]

theorem cls_set_cache (s : St) (i j : Nat) (d : Descriptor) (v : Val) :
    ((set_cache s i d v).obj j).cls = (s.obj j).cls := by
  by_cases hi : i < s.heap.length
  · by_cases hji : j = i
    · subst hji
      rw [obj_set_cache_self _ _ _ _ hi]
    · rw [obj_set_cache_ne _ _ _ _ _ hji]
  · rw [obj_set_cache_oob _ _ _ _ _ hi]

theorem pf_set_cache (s : St) (i j : Nat) (d : Descriptor) (v : Val) :
    ((set_cache s i d v).obj j).pf = (s.obj j).pf := by
  by_cases hi : i < s.heap.length
  · by_cases hji : j = i
    · subst hji
      rw [obj_set_cache_self _ _ _ _ hi]
    · rw [obj_set_cache_ne _ _ _ _ _ hji]
  · rw [obj_set_cache_oob _ _ _ _ _ hi]

theorem is_cached_set_cache_mono (s : St) (i j : Nat) (d d' : Descriptor) (v : Val)
    (h : is_cached s j d' = true) :
    is_cached (set_cache s i d v) j d' = true := by
  by_cases hi : i < s.heap.length
  · by_cases hji : j = i
    · subst hji
      rw [is_cached] at h ⊢
      rw [obj_set_cache_self _ _ _ _ hi]
      exact assocFind_isSome_setA _ _ _ _ h
    · rwa [is_cached, obj_set_cache_ne _ _ _ _ _ hji]
  · rwa [is_cached, obj_set_cache_oob _ _ _ _ _ hi]

theorem is_cached_set_cache_self (s : St) (i : Nat) (d : Descriptor) (v : Val)
    (h : i < s.heap.length) :
    is_cached (set_cache s i d v) i d = true := by
  rw [is_cached, obj_set_cache_self _ _ _ _ h]
  simp [assocFind_setA]

/-! ### Anatomy of get_related_api_objects -/

theorem obj_addLog (s : St) (e : Event) (j : Nat) : (addLog s e).obj j = s.obj j := rfl

theorem length_addLog (s : St) (e : Event) :
    (addLog s e).heap.length = s.heap.length := rfl

theorem tagAll_obj_notMem (d : Descriptor) (rs : List Nat) (s : St) (j : Nat)
    (h : j ∉ rs) : (tagAll d rs s).obj j = s.obj j := by
  induction rs generalizing s with
  | nil => rfl
  | cons r rest ih =>
    have hj : j ≠ r := fun he => h (by simp [he])
    have hrest : j ∉ rest := fun he => h (by simp [he])
    rw [tagAll, ih _ hrest, tagTemp, obj_setAttrV_ne _ _ _ _ _ hj]

theorem tagAll_length (d : Descriptor) (rs : List Nat) (s : St) :
    (tagAll d rs s).heap.length = s.heap.length := by
  induction rs generalizing s with
  | nil => rfl
  | cons r rest ih => rw [tagAll, ih, tagTemp, length_setAttrV]

theorem tagAll_log (d : Descriptor) (rs : List Nat) (s : St) :
    (tagAll d rs s).log = s.log := by
  induction rs generalizing s with
  | nil => rfl
  | cons r rest ih => rw [tagAll, ih, tagTemp, log_setAttrV]

theorem tagAll_done (d : Descriptor) (rs : List Nat) (s : St) :
    (tagAll d rs s).done = s.done := by
  induction rs generalizing s with
  | nil => rfl
  | cons r rest ih => rw [tagAll, ih, tagTemp, done_setAttrV]

theorem tagAll_followed (d : Descriptor) (rs : List Nat) (s : St) :
    (tagAll d rs s).followed = s.followed := by
  induction rs generalizing s with
  | nil => rfl
  | cons r rest ih => rw [tagAll, ih, tagTemp, followed_setAttrV]

theorem graoStep_fst (s : St) (d : Descriptor) (u : Val) :
    (graoStep s d u).1 = s.heap.length := rfl

theorem graoStep_length (s : St) (d : Descriptor) (u : Val) :
    (graoStep s d u).2.heap.length = s.heap.length + 1 := by
  simp [graoStep, tagTemp, length_setAttrV, addLog]

theorem graoStep_log (s : St) (d : Descriptor) (u : Val) :
    (graoStep s d u).2.log = s.log ++ [Event.singleCall d.field_name u] := by
  simp [graoStep, tagTemp, log_setAttrV, addLog]

theorem graoStep_done (s : St) (d : Descriptor) (u : Val) :
    (graoStep s d u).2.done = s.done := by
  simp [graoStep, tagTemp, done_setAttrV, addLog]

theorem graoStep_followed (s : St) (d : Descriptor) (u : Val) :
    (graoStep s d u).2.followed = s.followed := by
  simp [graoStep, tagTemp, followed_setAttrV, addLog]

theorem graoStep_obj (s : St) (d : Descriptor) (u : Val) (j : Nat)
    (h : j < s.heap.length) : (graoStep s d u).2.obj j = s.obj j := by
  show (tagTemp _ d _ u).obj j = s.obj j
  rw [tagTemp, obj_setAttrV_ne _ _ _ _ _ (by simp [addLog]; omega)]
  have happ := obj_heap_append (addLog s (.singleCall d.field_name u))
    [⟨(d.single_method u).1, (d.single_method u).2, [], []⟩] j (by simp [addLog]; omega)
  exact happ

theorem graoSingles_spec (d : Descriptor) (us : List Val) :
    ∀ (s : St),
    (graoSingles s d us).2.heap.length = s.heap.length + us.length ∧
    (graoSingles s d us).2.log = s.log ++ us.map (Event.singleCall d.field_name) ∧
    (graoSingles s d us).2.done = s.done ∧
    (graoSingles s d us).2.followed = s.followed ∧
    (∀ j, j < s.heap.length → (graoSingles s d us).2.obj j = s.obj j) ∧
    (∀ r ∈ (graoSingles s d us).1,
       s.heap.length ≤ r ∧ r < (graoSingles s d us).2.heap.length) ∧
    (graoSingles s d us).1.Nodup := by
  induction us with
  | nil => intro s; simp [graoSingles]
  | cons u rest ih =>
    intro s
    obtain ⟨ihlen, ihlog, ihdone, ihfol, ihobj, ihfresh, ihnd⟩ := ih (graoStep s d u).2
    have hunfold : graoSingles s d (u :: rest)
        = ((graoStep s d u).1 :: (graoSingles (graoStep s d u).2 d rest).1,
           (graoSingles (graoStep s d u).2 d rest).2) := rfl
    rw [hunfold]
    have hstep := graoStep_length s d u
    refine ⟨?_, ?_, ?_, ?_, ?_, ?_, ?_⟩
    · simp only [ihlen, hstep, List.length_cons]
      omega
    · rw [ihlog, graoStep_log]
      simp
    · rw [ihdone, graoStep_done]
    · rw [ihfol, graoStep_followed]
    · intro j hj
      rw [ihobj j (by omega), graoStep_obj _ _ _ _ hj]
    · intro r hr
      have hr' : r = (graoStep s d u).1 ∨ r ∈ (graoSingles (graoStep s d u).2 d rest).1 :=
        List.mem_cons.mp hr
      show s.heap.length ≤ r ∧ r < (graoSingles (graoStep s d u).2 d rest).2.heap.length
      rcases hr' with hre | hrm
      · subst hre
        rw [graoStep_fst]
        constructor
        · omega
        · rw [ihlen, hstep]
          omega
      · have hf := ihfresh r hrm
        rw [hstep] at hf
        constructor
        · omega
        · exact hf.2
    · refine List.Nodup.cons ?_ ihnd
      intro hmem
      have := ihfresh (graoStep s d u).1 hmem
      rw [graoStep_fst] at this
      omega

theorem grao_spec (s : St) (d : Descriptor) (instances : List Nat) :
    s.heap.length ≤ (get_related_api_objects s d instances).2.heap.length ∧
    (get_related_api_objects s d instances).2.log
      = s.log ++ fetchTrace d (collect_uuids s d instances) ∧
    (get_related_api_objects s d instances).2.done = s.done ∧
    (get_related_api_objects s d instances).2.followed = s.followed ∧
    (∀ j, j < s.heap.length → (get_related_api_objects s d instances).2.obj j = s.obj j) ∧
    (∀ r ∈ (get_related_api_objects s d instances).1,
       s.heap.length ≤ r ∧ r < (get_related_api_objects s d instances).2.heap.length) ∧
    (get_related_api_objects s d instances).1.Nodup := by
  cases hb : d.batch_method with
  | none =>
    obtain ⟨hlen, hlog, hdone, hfol, hobj, hfresh, hnd⟩ :=
      graoSingles_spec d (collect_uuids s d instances) s
    simp only [get_related_api_objects, hb]
    exact ⟨by omega, by rw [hlog, fetchTrace, hb], hdone, hfol, hobj, hfresh, hnd⟩
  | some f =>
    have hmain : get_related_api_objects s d instances
        = ((List.range (f (collect_uuids s d instances)).length).map
             (fun k => (addLog s (.batchCall d.field_name (collect_uuids s d instances))).heap.length + k),
           tagAll d
             ((List.range (f (collect_uuids s d instances)).length).map
               (fun k => (addLog s (.batchCall d.field_name (collect_uuids s d instances))).heap.length + k))
             { addLog s (.batchCall d.field_name (collect_uuids s d instances)) with
               heap := (addLog s (.batchCall d.field_name (collect_uuids s d instances))).heap
                 ++ (f (collect_uuids s d instances)).map (fun rd => Obj.mk rd.1 rd.2 [] []) }) := by
      simp only [get_related_api_objects, hb]
    have hlen1 : (addLog s (.batchCall d.field_name (collect_uuids s d instances))).heap.length
        = s.heap.length := rfl
    rw [hmain]
    have hrecmem : ∀ r ∈ (List.range (f (collect_uuids s d instances)).length).map
        (fun k => (addLog s (.batchCall d.field_name (collect_uuids s d instances))).heap.length + k),
        s.heap.length ≤ r ∧ r < s.heap.length + (f (collect_uuids s d instances)).length := by
      intro r hr
      simp only [List.mem_map, List.mem_range] at hr
      obtain ⟨k, hk, hkr⟩ := hr
      rw [hlen1] at hkr
      omega
    refine ⟨?_, ?_, ?_, ?_, ?_, ?_, ?_⟩
    · rw [tagAll_length]
      simp [addLog]
    · rw [tagAll_log, fetchTrace, hb]
      rfl
    · rw [tagAll_done]
      rfl
    · rw [tagAll_followed]
      rfl
    · intro j hj
      have hnm : j ∉ (List.range (f (collect_uuids s d instances)).length).map
          (fun k => (addLog s (.batchCall d.field_name (collect_uuids s d instances))).heap.length + k) := by
        intro hm
        have := hrecmem j hm
        omega
      rw [tagAll_obj_notMem _ _ _ _ hnm]
      have happ := obj_heap_append (addLog s (.batchCall d.field_name (collect_uuids s d instances)))
        ((f (collect_uuids s d instances)).map (fun rd => Obj.mk rd.1 rd.2 [] []))
        j (by rw [hlen1]; omega)
      exact happ
    · intro r hr
      have := hrecmem r hr
      rw [tagAll_length]
      constructor
      · omega
      · simp only [St.heap]
        simp
        omega
    · refine List.Nodup.map ?_ (List.nodup_range _)
      intro a b hab
      exact Nat.add_left_cancel hab

/-! ### Anatomy of the correlation grouping (rel_obj_attr, buildRelCache) -/

theorem obj_oob (s : St) (r : Nat) (h : ¬ r < s.heap.length) :
    s.obj r = ⟨0, [], [], []⟩ := by
  have : s.heap[r]? = Option.none := by
    rw [List.getElem?_eq_none_iff]
    omega
  simp [St.obj, List.getD, this]

theorem rel_obj_attr_fst (s : St) (d : Descriptor) (r : Nat) :
    (rel_obj_attr s d r).1 = tagKey s d r := rfl

theorem rel_obj_attr_obj_ne (s : St) (d : Descriptor) (r j : Nat) (h : j ≠ r) :
    (rel_obj_attr s d r).2.obj j = s.obj j := by
  by_cases hr : r < s.heap.length
  · exact obj_setObj_ne _ _ _ _ h
  · exact obj_setObj_oob _ _ _ _ hr

theorem rel_obj_attr_length (s : St) (d : Descriptor) (r : Nat) :
    (rel_obj_attr s d r).2.heap.length = s.heap.length :=
  length_setObj _ _ _

theorem rel_obj_attr_log (s : St) (d : Descriptor) (r : Nat) :
    (rel_obj_attr s d r).2.log = s.log := rfl

theorem rel_obj_attr_done (s : St) (d : Descriptor) (r : Nat) :
    (rel_obj_attr s d r).2.done = s.done := rfl

theorem rel_obj_attr_followed (s : St) (d : Descriptor) (r : Nat) :
    (rel_obj_attr s d r).2.followed = s.followed := rfl

theorem rel_obj_attr_temp_cleared (s : St) (d : Descriptor) (r : Nat) :
    assocFind ((rel_obj_attr s d r).2.obj r).attrs (temp_identifier_name d)
      = Option.none := by
  by_cases hr : r < s.heap.length
  · have : (rel_obj_attr s d r).2.obj r
        = { s.obj r with attrs := (popA (s.obj r).attrs (temp_identifier_name d)).2 } :=
      obj_setObj_self _ _ _ hr
    rw [this]
    show assocFind (removeKey (s.obj r).attrs (temp_identifier_name d)) _ = _
    rw [assocFind_removeKey]
    simp
  · have : (rel_obj_attr s d r).2.obj r = s.obj r := obj_setObj_oob _ _ _ _ hr
    rw [this, obj_oob s r hr]
    rfl

theorem buildRelCacheAux_obj_notMem (d : Descriptor) (recs : List Nat) :
    ∀ (s : St) (m : List (Val × List Nat)) (j : Nat), j ∉ recs →
    (buildRelCacheAux s d m recs).2.obj j = s.obj j := by
  induction recs with
  | nil => intro s m j _; rfl
  | cons r rest ih =>
    intro s m j hj
    have hjr : j ≠ r := fun he => hj (by simp [he])
    have hjrest : j ∉ rest := fun he => hj (by simp [he])
    show (buildRelCacheAux (rel_obj_attr s d r).2 d _ rest).2.obj j = s.obj j
    rw [ih _ _ _ hjrest, rel_obj_attr_obj_ne _ _ _ _ hjr]

theorem buildRelCacheAux_length (d : Descriptor) (recs : List Nat) :
    ∀ (s : St) (m : List (Val × List Nat)),
    (buildRelCacheAux s d m recs).2.heap.length = s.heap.length := by
  induction recs with
  | nil => intro s m; rfl
  | cons r rest ih =>
    intro s m
    show (buildRelCacheAux (rel_obj_attr s d r).2 d _ rest).2.heap.length = _
    rw [ih, rel_obj_attr_length]

theorem buildRelCacheAux_log (d : Descriptor) (recs : List Nat) :
    ∀ (s : St) (m : List (Val × List Nat)),
    (buildRelCacheAux s d m recs).2.log = s.log := by
  induction recs with
  | nil => intro s m; rfl
  | cons r rest ih =>
    intro s m
    show (buildRelCacheAux (rel_obj_attr s d r).2 d _ rest).2.log = _
    rw [ih, rel_obj_attr_log]

theorem buildRelCacheAux_done (d : Descriptor) (recs : List Nat) :
    ∀ (s : St) (m : List (Val × List Nat)),
    (buildRelCacheAux s d m recs).2.done = s.done := by
  induction recs with
  | nil => intro s m; rfl
  | cons r rest ih =>
    intro s m
    show (buildRelCacheAux (rel_obj_attr s d r).2 d _ rest).2.done = _
    rw [ih, rel_obj_attr_done]

theorem buildRelCacheAux_followed (d : Descriptor) (recs : List Nat) :
    ∀ (s : St) (m : List (Val × List Nat)),
    (buildRelCacheAux s d m recs).2.followed = s.followed := by
  induction recs with
  | nil => intro s m; rfl
  | cons r rest ih =>
    intro s m
    show (buildRelCacheAux (rel_obj_attr s d r).2 d _ rest).2.followed = _
    rw [ih, rel_obj_attr_followed]

theorem buildRelCacheAux_temp_cleared (d : Descriptor) (recs : List Nat) :
    ∀ (s : St) (m : List (Val × List Nat)), recs.Nodup →
    ∀ r ∈ recs,
    assocFind ((buildRelCacheAux s d m recs).2.obj r).attrs (temp_identifier_name d)
      = Option.none := by
  induction recs with
  | nil => intro s m _ r hr; simp at hr
  | cons r0 rest ih =>
    intro s m hnd r hr
    have hnd' := List.nodup_cons.mp hnd
    rcases List.mem_cons.mp hr with hre | hrm
    · subst hre
      show assocFind ((buildRelCacheAux (rel_obj_attr s d r).2 d _ rest).2.obj r).attrs _
        = Option.none
      rw [buildRelCacheAux_obj_notMem _ _ _ _ _ hnd'.1]
      exact rel_obj_attr_temp_cleared s d r
    · exact ih _ _ hnd'.2 r hrm

theorem foldl_setdefault_congr (rs : List Nat) :
    ∀ (m : List (Val × List Nat)) (k1 k2 : Nat → Val), (∀ r ∈ rs, k1 r = k2 r) →
    rs.foldl (fun acc r => setdefaultAppend acc (k1 r) r) m
      = rs.foldl (fun acc r => setdefaultAppend acc (k2 r) r) m := by
  induction rs with
  | nil => intro m k1 k2 _; rfl
  | cons r rest ih =>
    intro m k1 k2 hk
    simp only [List.foldl_cons]
    rw [hk r (by simp)]
    exact ih _ k1 k2 (fun r' hr' => hk r' (by simp [hr']))

theorem buildRelCacheAux_map (d : Descriptor) (recs : List Nat) :
    ∀ (s : St) (m : List (Val × List Nat)), recs.Nodup →
    (buildRelCacheAux s d m recs).1
      = recs.foldl (fun acc r => setdefaultAppend acc (tagKey s d r) r) m := by
  induction recs with
  | nil => intro s m _; rfl
  | cons r rest ih =>
    intro s m hnd
    have hnd' := List.nodup_cons.mp hnd
    show (buildRelCacheAux (rel_obj_attr s d r).2 d
        (setdefaultAppend m (rel_obj_attr s d r).1 r) rest).1 = _
    rw [ih _ _ hnd'.2, rel_obj_attr_fst]
    simp only [List.foldl_cons]
    exact foldl_setdefault_congr rest _ _ _
      (fun r' hr' => by
        rw [tagKey, tagKey, rel_obj_attr_obj_ne s d r r'
          (fun he => hnd'.1 (he ▸ hr'))])

theorem relCacheGet_setdefaultAppend (m : List (Val × List Nat)) (k : Val) (r : Nat)
    (u : Val) :
    relCacheGet (setdefaultAppend m k r) u
      = if k = u then relCacheGet m u ++ [r] else relCacheGet m u := by
  induction m with
  | nil =>
    by_cases hk : k = u <;> simp [setdefaultAppend, relCacheGet, hk]
  | cons p rest ih =>
    obtain ⟨k', rs⟩ := p
    by_cases hk' : k' = k
    · subst hk'
      by_cases hku : k' = u <;> simp [setdefaultAppend, relCacheGet, hku]
    · by_cases hku : k' = u
      · subst hku
        have hne : ¬ (k = k') := fun h => hk' h.symm
        simp [setdefaultAppend, hk', relCacheGet, hne]
      · simp [setdefaultAppend, hk', relCacheGet, hku, ih]

theorem relCacheGet_foldl (rs : List Nat) :
    ∀ (m : List (Val × List Nat)) (key : Nat → Val) (u : Val),
    relCacheGet (rs.foldl (fun acc r => setdefaultAppend acc (key r) r) m) u
      = relCacheGet m u ++ rs.filter (fun r => decide (key r = u)) := by
  induction rs with
  | nil => intro m key u; simp
  | cons r rest ih =>
    intro m key u
    simp only [List.foldl_cons]
    rw [ih]
    by_cases hk : key r = u
    · rw [List.filter_cons_of_pos (by simp [hk])]
      rw [relCacheGet_setdefaultAppend, if_pos hk]
      simp
    · rw [List.filter_cons_of_neg (by simp [hk])]
      rw [relCacheGet_setdefaultAppend, if_neg hk]

theorem head?_filter_eq_find? {α : Type} (p : α → Bool) (l : List α) :
    (l.filter p).head? = l.find? p := by
  induction l with
  | nil => rfl
  | cons a rest ih =>
    by_cases hp : p a
    · rw [List.filter_cons_of_pos hp, List.find?_cons_of_pos _ hp]
      rfl
    · rw [List.filter_cons_of_neg (by simpa using hp), List.find?_cons_of_neg _ (by simpa using hp)]
      exact ih

/-- The grouping built by `select_one_level`: a key's first hit is the
first fetched record whose correlation key matches. -/
theorem buildRelCache_head (s : St) (d : Descriptor) (recs : List Nat)
    (hnd : recs.Nodup) (u : Val) :
    (relCacheGet (buildRelCache s d recs).1 u).head? = firstMatch s d recs u := by
  rw [buildRelCache, buildRelCacheAux_map _ _ _ _ hnd, relCacheGet_foldl]
  show (recs.filter (fun r => decide (tagKey s d r = u))).head? = _
  rw [head?_filter_eq_find?]
  rfl

/-! ### Deduplication of the identifier set -/

theorem mem_foldl_insertDistinct (l : List Val) :
    ∀ (acc : List Val) (v : Val),
    v ∈ l.foldl insertDistinct acc ↔ v ∈ acc ∨ v ∈ l := by
  induction l with
  | nil => intro acc v; simp
  | cons x rest ih =>
    intro acc v
    simp only [List.foldl_cons]
    rw [ih]
    rw [insertDistinct]
    by_cases hx : x ∈ acc
    · rw [if_pos hx]
      constructor
      · rintro (h | h)
        · exact Or.inl h
        · exact Or.inr (by simp [h])
      · rintro (h | h)
        · exact Or.inl h
        · rcases List.mem_cons.mp h with he | hm
          · exact Or.inl (he ▸ hx)
          · exact Or.inr hm
    · rw [if_neg hx]
      constructor
      · rintro (h | h)
        · rcases List.mem_append.mp h with ha | hb
          · exact Or.inl ha
          · simp at hb
            exact Or.inr (by simp [hb])
        · exact Or.inr (by simp [h])
      · rintro (h | h)
        · exact Or.inl (List.mem_append.mpr (Or.inl h))
        · rcases List.mem_cons.mp h with he | hm
          · exact Or.inl (List.mem_append.mpr (Or.inr (by simp [he])))
          · exact Or.inr hm

theorem nodup_foldl_insertDistinct (l : List Val) :
    ∀ (acc : List Val), acc.Nodup → (l.foldl insertDistinct acc).Nodup := by
  induction l with
  | nil => intro acc h; exact h
  | cons x rest ih =>
    intro acc h
    simp only [List.foldl_cons]
    apply ih
    rw [insertDistinct]
    by_cases hx : x ∈ acc
    · rwa [if_pos hx]
    · rw [if_neg hx]
      have hgoal : acc.Nodup ∧ x ∉ acc := ⟨h, hx⟩
      simpa [List.nodup_append] using hgoal

theorem collect_uuids_nodup (s : St) (d : Descriptor) (instances : List Nat) :
    (collect_uuids s d instances).Nodup :=
  nodup_foldl_insertDistinct _ _ List.nodup_nil

theorem collect_uuids_mem (s : St) (d : Descriptor) (instances : List Nat) (v : Val) :
    v ∈ collect_uuids s d instances ↔ v ∈ occurrence_ids s d instances := by
  rw [collect_uuids, mem_foldl_insertDistinct]
  simp

/-! ### Anatomy of the assignment loop -/

theorem length_assignOne (s : St) (d : Descriptor) (m : List (Val × List Nat))
    (ta : String) (i : Nat) :
    (assignOne s d m ta i).heap.length = s.heap.length := by
  rw [assignOne, length_setAttrV, length_set_cache]

theorem log_assignOne (s : St) (d : Descriptor) (m : List (Val × List Nat))
    (ta : String) (i : Nat) : (assignOne s d m ta i).log = s.log := by
  rw [assignOne, log_setAttrV, log_set_cache]

theorem done_assignOne (s : St) (d : Descriptor) (m : List (Val × List Nat))
    (ta : String) (i : Nat) : (assignOne s d m ta i).done = s.done := by
  rw [assignOne, done_setAttrV, done_set_cache]

theorem followed_assignOne (s : St) (d : Descriptor) (m : List (Val × List Nat))
    (ta : String) (i : Nat) : (assignOne s d m ta i).followed = s.followed := by
  rw [assignOne, followed_setAttrV, followed_set_cache]

theorem obj_assignOne_ne (s : St) (d : Descriptor) (m : List (Val × List Nat))
    (ta : String) (i j : Nat) (h : j ≠ i) :
    (assignOne s d m ta i).obj j = s.obj j := by
  rw [assignOne, obj_setAttrV_ne _ _ _ _ _ h, obj_set_cache_ne _ _ _ _ _ h]

theorem attrs_assignOne_other (s : St) (d : Descriptor) (m : List (Val × List Nat))
    (ta : String) (i j : Nat) (key : String) (hk : key ≠ ta) :
    assocFind ((assignOne s d m ta i).obj j).attrs key
      = assocFind (s.obj j).attrs key := by
  rw [assignOne, attrs_setAttrV _ _ _ _ _ _ hk]
  rw [attrs_set_cache]

theorem cls_assignOne (s : St) (d : Descriptor) (m : List (Val × List Nat))
    (ta : String) (i j : Nat) :
    ((assignOne s d m ta i).obj j).cls = (s.obj j).cls := by
  rw [assignOne, cls_setAttrV, cls_set_cache]

theorem is_cached_assignOne_mono (s : St) (d d' : Descriptor)
    (m : List (Val × List Nat)) (ta : String) (i j : Nat)
    (h : is_cached s j d' = true) :
    is_cached (assignOne s d m ta i) j d' = true := by
  rw [assignOne, is_cached]
  rw [show ((setAttrV (set_cache s i d (assignValCompute s d m i)) i ta
      (assignValCompute s d m i)).obj j).cache
    = ((set_cache s i d (assignValCompute s d m i)).obj j).cache from cache_setAttrV _ _ _ _ _]
  exact is_cached_set_cache_mono s i j d d' _ h

theorem glav_assignOne (s : St) (d : Descriptor) (m : List (Val × List Nat))
    (ta : String) (i j : Nat) (hta : ta ≠ d.field_name) :
    get_local_attr_value (assignOne s d m ta i) d j = get_local_attr_value s d j := by
  rw [get_local_attr_value, get_local_attr_value,
    attrs_assignOne_other s d m ta i j d.field_name (fun h => hta h.symm)]

theorem assignValCompute_assignOne (s : St) (d : Descriptor)
    (m m' : List (Val × List Nat)) (ta : String) (i j : Nat)
    (hta : ta ≠ d.field_name) :
    assignValCompute (assignOne s d m' ta i) d m j = assignValCompute s d m j := by
  rw [assignValCompute, assignValCompute, glav_assignOne s d m' ta i j hta]

theorem cache_after_assignOne_self (s : St) (d : Descriptor)
    (m : List (Val × List Nat)) (ta : String) (i : Nat) (h : i < s.heap.length) :
    assocFind ((assignOne s d m ta i).obj i).cache d.field_name
      = some (assignValCompute s d m i) := by
  rw [assignOne]
  rw [show ((setAttrV (set_cache s i d (assignValCompute s d m i)) i ta
      (assignValCompute s d m i)).obj i).cache
    = ((set_cache s i d (assignValCompute s d m i)).obj i).cache from cache_setAttrV _ _ _ _ _]
  rw [obj_set_cache_self _ _ _ _ h]
  simp [assocFind_setA]

theorem attr_after_assignOne_self (s : St) (d : Descriptor)
    (m : List (Val × List Nat)) (ta : String) (i : Nat) (h : i < s.heap.length) :
    assocFind ((assignOne s d m ta i).obj i).attrs ta
      = some (assignValCompute s d m i) := by
  rw [assignOne]
  have hlen : i < (set_cache s i d (assignValCompute s d m i)).heap.length := by
    rw [length_set_cache]
    exact h
  rw [obj_setAttrV_self _ _ _ _ hlen]
  simp [assocFind_setA]

theorem length_assignLoop (d : Descriptor) (m : List (Val × List Nat)) (ta : String)
    (is : List Nat) : ∀ (s : St),
    (assignLoop d m ta is s).heap.length = s.heap.length := by
  induction is with
  | nil => intro s; rfl
  | cons i rest ih =>
    intro s
    show (assignLoop d m ta rest (assignOne s d m ta i)).heap.length = _
    rw [ih, length_assignOne]

theorem log_assignLoop (d : Descriptor) (m : List (Val × List Nat)) (ta : String)
    (is : List Nat) : ∀ (s : St), (assignLoop d m ta is s).log = s.log := by
  induction is with
  | nil => intro s; rfl
  | cons i rest ih =>
    intro s
    show (assignLoop d m ta rest (assignOne s d m ta i)).log = _
    rw [ih, log_assignOne]

theorem done_assignLoop (d : Descriptor) (m : List (Val × List Nat)) (ta : String)
    (is : List Nat) : ∀ (s : St), (assignLoop d m ta is s).done = s.done := by
  induction is with
  | nil => intro s; rfl
  | cons i rest ih =>
    intro s
    show (assignLoop d m ta rest (assignOne s d m ta i)).done = _
    rw [ih, done_assignOne]

theorem followed_assignLoop (d : Descriptor) (m : List (Val × List Nat)) (ta : String)
    (is : List Nat) : ∀ (s : St), (assignLoop d m ta is s).followed = s.followed := by
  induction is with
  | nil => intro s; rfl
  | cons i rest ih =>
    intro s
    show (assignLoop d m ta rest (assignOne s d m ta i)).followed = _
    rw [ih, followed_assignOne]

theorem obj_assignLoop_notMem (d : Descriptor) (m : List (Val × List Nat))
    (ta : String) (is : List Nat) : ∀ (s : St) (j : Nat), j ∉ is →
    (assignLoop d m ta is s).obj j = s.obj j := by
  induction is with
  | nil => intro s j _; rfl
  | cons i rest ih =>
    intro s j hj
    have hji : j ≠ i := fun he => hj (by simp [he])
    have hjrest : j ∉ rest := fun he => hj (by simp [he])
    show (assignLoop d m ta rest (assignOne s d m ta i)).obj j = _
    rw [ih _ _ hjrest, obj_assignOne_ne _ _ _ _ _ _ hji]

theorem cls_assignLoop (d : Descriptor) (m : List (Val × List Nat))
    (ta : String) (is : List Nat) : ∀ (s : St) (j : Nat),
    ((assignLoop d m ta is s).obj j).cls = (s.obj j).cls := by
  induction is with
  | nil => intro s j; rfl
  | cons i rest ih =>
    intro s j
    show ((assignLoop d m ta rest (assignOne s d m ta i)).obj j).cls = _
    rw [ih, cls_assignOne]

theorem is_cached_assignLoop_mono (d d' : Descriptor) (m : List (Val × List Nat))
    (ta : String) (is : List Nat) : ∀ (s : St) (j : Nat),
    is_cached s j d' = true → is_cached (assignLoop d m ta is s) j d' = true := by
  induction is with
  | nil => intro s j h; exact h
  | cons i rest ih =>
    intro s j h
    show is_cached (assignLoop d m ta rest (assignOne s d m ta i)) j d' = true
    exact ih _ _ (is_cached_assignOne_mono s d d' m ta i j h)

theorem assignLoop_spec (d : Descriptor) (m : List (Val × List Nat)) (ta : String)
    (hta : ta ≠ d.field_name) (is : List Nat) : ∀ (s : St),
    (∀ i ∈ is, i < s.heap.length) →
    ∀ i ∈ is,
      assocFind ((assignLoop d m ta is s).obj i).cache d.field_name
        = some (assignValCompute s d m i) ∧
      assocFind ((assignLoop d m ta is s).obj i).attrs ta
        = some (assignValCompute s d m i) := by
  induction is with
  | nil => intro s _ i hi; simp at hi
  | cons i0 rest ih =>
    intro s hval i hi
    have hlen0 : i0 < s.heap.length := hval i0 (by simp)
    by_cases hmem : i ∈ rest
    · have hval' : ∀ j ∈ rest, j < (assignOne s d m ta i0).heap.length := by
        intro j hj
        rw [length_assignOne]
        exact hval j (by simp [hj])
      have hpair := ih (assignOne s d m ta i0) hval' i hmem
      refine ⟨?_, ?_⟩
      · show assocFind ((assignLoop d m ta rest (assignOne s d m ta i0)).obj i).cache
            d.field_name = _
        rw [hpair.1, assignValCompute_assignOne s d m m ta i0 i hta]
      · show assocFind ((assignLoop d m ta rest (assignOne s d m ta i0)).obj i).attrs
            ta = _
        rw [hpair.2, assignValCompute_assignOne s d m m ta i0 i hta]
    · have hie : i = i0 := by
        rcases List.mem_cons.mp hi with he | hm
        · exact he
        · exact absurd hm hmem
      subst hie
      refine ⟨?_, ?_⟩
      · show assocFind ((assignLoop d m ta rest (assignOne s d m ta i)).obj i).cache
            d.field_name = _
        rw [obj_assignLoop_notMem _ _ _ _ _ _ hmem]
        exact cache_after_assignOne_self s d m ta i hlen0
      · show assocFind ((assignLoop d m ta rest (assignOne s d m ta i)).obj i).attrs
            ta = _
        rw [obj_assignLoop_notMem _ _ _ _ _ _ hmem]
        exact attr_after_assignOne_self s d m ta i hlen0

theorem is_cached_assignOne_self (s : St) (d : Descriptor)
    (m : List (Val × List Nat)) (ta : String) (i : Nat) (h : i < s.heap.length) :
    is_cached (assignOne s d m ta i) i d = true := by
  rw [is_cached, cache_after_assignOne_self s d m ta i h]
  rfl

theorem assignLoop_all_cached (d : Descriptor) (m : List (Val × List Nat))
    (ta : String) (is : List Nat) : ∀ (s : St) (i : Nat), i ∈ is →
    i < s.heap.length →
    is_cached (assignLoop d m ta is s) i d = true := by
  induction is with
  | nil => intro s i hi; simp at hi
  | cons i0 rest ih =>
    intro s i hi hival
    by_cases hmem : i ∈ rest
    · have hival' : i < (assignOne s d m ta i0).heap.length := by
        rw [length_assignOne]
        exact hival
      exact ih (assignOne s d m ta i0) i hmem hival'
    · have hie : i = i0 := by
        rcases List.mem_cons.mp hi with he | hm
        · exact he
        · exact absurd hm hmem
      subst hie
      show is_cached (assignLoop d m ta rest (assignOne s d m ta i)) i d = true
      exact is_cached_assignLoop_mono d d m ta rest _ _
        (is_cached_assignOne_self s d m ta i hival)

/-! ### Anatomy of select_one_level -/

theorem assignSpec_refs (s0 s1 : St) (d : Descriptor) (recs : List Nat) (i : Nat) :
    ∀ r' ∈ (assignSpec s0 s1 d recs i).refs, r' ∈ recs := by
  intro r' hr'
  cases hg : get_local_attr_value s0 d i with
  | many us =>
    simp only [assignSpec, hg, Val.refs] at hr'
    rcases List.mem_filterMap.mp hr' with ⟨u, _, hu⟩
    exact List.mem_of_find?_eq_some hu
  | single u =>
    cases hfm : firstMatch s1 d recs u with
    | none => simp [assignSpec, hg, hfm, Val.refs] at hr'
    | some r0 =>
      simp only [assignSpec, hg, hfm, Val.refs, List.mem_singleton] at hr'
      subst hr'
      exact List.mem_of_find?_eq_some hfm

theorem assignValCompute_bridge (sA sB s1 : St) (d : Descriptor) (p1 : List Nat)
    (m : List (Val × List Nat)) (i : Nat)
    (hg : get_local_attr_value sA d i = get_local_attr_value sB d i)
    (hm : ∀ u, (relCacheGet m u).head? = firstMatch s1 d p1 u) :
    assignValCompute sA d m i = assignSpec sB s1 d p1 i := by
  rw [assignValCompute, assignSpec, hg]
  have hfun : (fun u => (relCacheGet m u).head?) = firstMatch s1 d p1 := funext hm
  cases get_local_attr_value sB d i with
  | many us => simp only [hfun]
  | single u => simp only [hm u]

theorem sol_done (sc : Schema) (s : St) (instances : List Nat) (d : Descriptor)
    (lk : SelectAPIRelated) (level : Nat) :
    (solSt (select_one_level sc s instances d lk level)).done = s.done := by
  rw [select_one_level]
  have hq : (buildRelCache (get_related_api_objects s d instances).2 d
      (get_related_api_objects s d instances).1).2.done = s.done := by
    rw [buildRelCache, buildRelCacheAux_done, (grao_spec s d instances).2.2.1]
  by_cases hc : (lk.get_current_to_attr level).2 = true ∧ instances ≠ [] ∧
      (lk.get_current_to_attr level).1 ∈ sc.fields
        (((buildRelCache (get_related_api_objects s d instances).2 d
          (get_related_api_objects s d instances).1).2.obj (instances.headD 0)).cls)
  · rw [if_pos hc]
    exact hq
  · rw [if_neg hc]
    show (assignLoop _ _ _ _ _).done = s.done
    rw [done_assignLoop]
    exact hq

theorem sol_followed (sc : Schema) (s : St) (instances : List Nat) (d : Descriptor)
    (lk : SelectAPIRelated) (level : Nat) :
    (solSt (select_one_level sc s instances d lk level)).followed = s.followed := by
  rw [select_one_level]
  have hq : (buildRelCache (get_related_api_objects s d instances).2 d
      (get_related_api_objects s d instances).1).2.followed = s.followed := by
    rw [buildRelCache, buildRelCacheAux_followed, (grao_spec s d instances).2.2.2.1]
  by_cases hc : (lk.get_current_to_attr level).2 = true ∧ instances ≠ [] ∧
      (lk.get_current_to_attr level).1 ∈ sc.fields
        (((buildRelCache (get_related_api_objects s d instances).2 d
          (get_related_api_objects s d instances).1).2.obj (instances.headD 0)).cls)
  · rw [if_pos hc]
    exact hq
  · rw [if_neg hc]
    show (assignLoop _ _ _ _ _).followed = s.followed
    rw [followed_assignLoop]
    exact hq

theorem sol_log (sc : Schema) (s : St) (instances : List Nat) (d : Descriptor)
    (lk : SelectAPIRelated) (level : Nat) :
    (solSt (select_one_level sc s instances d lk level)).log
      = s.log ++ fetchTrace d (collect_uuids s d instances) := by
  rw [select_one_level]
  have hq : (buildRelCache (get_related_api_objects s d instances).2 d
      (get_related_api_objects s d instances).1).2.log
      = s.log ++ fetchTrace d (collect_uuids s d instances) := by
    rw [buildRelCache, buildRelCacheAux_log, (grao_spec s d instances).2.1]
  by_cases hc : (lk.get_current_to_attr level).2 = true ∧ instances ≠ [] ∧
      (lk.get_current_to_attr level).1 ∈ sc.fields
        (((buildRelCache (get_related_api_objects s d instances).2 d
          (get_related_api_objects s d instances).1).2.obj (instances.headD 0)).cls)
  · rw [if_pos hc]
    exact hq
  · rw [if_neg hc]
    show (assignLoop _ _ _ _ _).log = _
    rw [log_assignLoop]
    exact hq

theorem sol_length (sc : Schema) (s : St) (instances : List Nat) (d : Descriptor)
    (lk : SelectAPIRelated) (level : Nat) :
    s.heap.length ≤ (solSt (select_one_level sc s instances d lk level)).heap.length := by
  rw [select_one_level]
  have hq : (buildRelCache (get_related_api_objects s d instances).2 d
      (get_related_api_objects s d instances).1).2.heap.length
      = (get_related_api_objects s d instances).2.heap.length := by
    rw [buildRelCache, buildRelCacheAux_length]
  have hg := (grao_spec s d instances).1
  by_cases hc : (lk.get_current_to_attr level).2 = true ∧ instances ≠ [] ∧
      (lk.get_current_to_attr level).1 ∈ sc.fields
        (((buildRelCache (get_related_api_objects s d instances).2 d
          (get_related_api_objects s d instances).1).2.obj (instances.headD 0)).cls)
  · rw [if_pos hc]
    show s.heap.length ≤ (buildRelCache _ _ _).2.heap.length
    omega
  · rw [if_neg hc]
    show s.heap.length ≤ (assignLoop _ _ _ _ _).heap.length
    rw [length_assignLoop]
    omega

theorem sol_obj_valid (sc : Schema) (s : St) (instances : List Nat) (d : Descriptor)
    (lk : SelectAPIRelated) (level : Nat) (j : Nat) (hj : j < s.heap.length)
    (hjm : j ∉ instances) :
    (solSt (select_one_level sc s instances d lk level)).obj j = s.obj j := by
  rw [select_one_level]
  have hjrec : j ∉ (get_related_api_objects s d instances).1 := by
    intro hm
    have := ((grao_spec s d instances).2.2.2.2.2.1) j hm
    omega
  have hq : (buildRelCache (get_related_api_objects s d instances).2 d
      (get_related_api_objects s d instances).1).2.obj j = s.obj j := by
    rw [buildRelCache, buildRelCacheAux_obj_notMem _ _ _ _ _ hjrec,
      (grao_spec s d instances).2.2.2.2.1 j hj]
  by_cases hc : (lk.get_current_to_attr level).2 = true ∧ instances ≠ [] ∧
      (lk.get_current_to_attr level).1 ∈ sc.fields
        (((buildRelCache (get_related_api_objects s d instances).2 d
          (get_related_api_objects s d instances).1).2.obj (instances.headD 0)).cls)
  · rw [if_pos hc]
    exact hq
  · rw [if_neg hc]
    show (assignLoop _ _ _ _ _).obj j = s.obj j
    rw [obj_assignLoop_notMem _ _ _ _ _ _ hjm]
    exact hq

theorem sol_mono (sc : Schema) (s : St) (instances : List Nat) (d d' : Descriptor)
    (lk : SelectAPIRelated) (level : Nat) (j : Nat) (hj : j < s.heap.length)
    (h : is_cached s j d' = true) :
    is_cached (solSt (select_one_level sc s instances d lk level)) j d' = true := by
  rw [select_one_level]
  have hjrec : j ∉ (get_related_api_objects s d instances).1 := by
    intro hm
    have := ((grao_spec s d instances).2.2.2.2.2.1) j hm
    omega
  have hq : (buildRelCache (get_related_api_objects s d instances).2 d
      (get_related_api_objects s d instances).1).2.obj j = s.obj j := by
    rw [buildRelCache, buildRelCacheAux_obj_notMem _ _ _ _ _ hjrec,
      (grao_spec s d instances).2.2.2.2.1 j hj]
  by_cases hc : (lk.get_current_to_attr level).2 = true ∧ instances ≠ [] ∧
      (lk.get_current_to_attr level).1 ∈ sc.fields
        (((buildRelCache (get_related_api_objects s d instances).2 d
          (get_related_api_objects s d instances).1).2.obj (instances.headD 0)).cls)
  · rw [if_pos hc]
    show is_cached (buildRelCache _ _ _).2 j d' = true
    rwa [is_cached, hq]
  · rw [if_neg hc]
    show is_cached (assignLoop _ _ _ _ _) j d' = true
    apply is_cached_assignLoop_mono
    rwa [is_cached, hq]

theorem sol_cls (sc : Schema) (s : St) (instances : List Nat) (d : Descriptor)
    (lk : SelectAPIRelated) (level : Nat) (j : Nat) (hj : j < s.heap.length) :
    ((solSt (select_one_level sc s instances d lk level)).obj j).cls
      = (s.obj j).cls := by
  rw [select_one_level]
  have hjrec : j ∉ (get_related_api_objects s d instances).1 := by
    intro hm
    have := ((grao_spec s d instances).2.2.2.2.2.1) j hm
    omega
  have hq : (buildRelCache (get_related_api_objects s d instances).2 d
      (get_related_api_objects s d instances).1).2.obj j = s.obj j := by
    rw [buildRelCache, buildRelCacheAux_obj_notMem _ _ _ _ _ hjrec,
      (grao_spec s d instances).2.2.2.2.1 j hj]
  by_cases hc : (lk.get_current_to_attr level).2 = true ∧ instances ≠ [] ∧
      (lk.get_current_to_attr level).1 ∈ sc.fields
        (((buildRelCache (get_related_api_objects s d instances).2 d
          (get_related_api_objects s d instances).1).2.obj (instances.headD 0)).cls)
  · rw [if_pos hc]
    show ((buildRelCache _ _ _).2.obj j).cls = _
    rw [hq]
  · rw [if_neg hc]
    show ((assignLoop _ _ _ _ _).obj j).cls = _
    rw [cls_assignLoop, hq]

theorem select_one_level_ok_spec (sc : Schema) (s : St) (instances : List Nat)
    (d : Descriptor) (lk : SelectAPIRelated) (level : Nat)
    (hval : ∀ i ∈ instances, i < s.heap.length)
    (hta : (lk.get_current_to_attr level).1 ≠ d.field_name)
    (hnoc : ¬((lk.get_current_to_attr level).2 = true ∧ instances ≠ [] ∧
      (lk.get_current_to_attr level).1 ∈ sc.fields (s.obj (instances.headD 0)).cls)) :
    ∃ s', select_one_level sc s instances d lk level
        = .ok ((get_related_api_objects s d instances).1, s') ∧
      (∀ i ∈ instances,
        assocFind (s'.obj i).cache d.field_name
          = some (assignSpec s (get_related_api_objects s d instances).2 d
              (get_related_api_objects s d instances).1 i) ∧
        assocFind (s'.obj i).attrs (lk.get_current_to_attr level).1
          = some (assignSpec s (get_related_api_objects s d instances).2 d
              (get_related_api_objects s d instances).1 i)) ∧
      (∀ r ∈ (get_related_api_objects s d instances).1,
        assocFind (s'.obj r).attrs (temp_identifier_name d) = Option.none) := by
  have hfreshP := (grao_spec s d instances).2.2.2.2.2.1
  have hndP := (grao_spec s d instances).2.2.2.2.2.2
  have hobjP := (grao_spec s d instances).2.2.2.2.1
  have hlenP := (grao_spec s d instances).1
  have hinotrec : ∀ i ∈ instances, i ∉ (get_related_api_objects s d instances).1 := by
    intro i hi hm
    have := hfreshP i hm
    have := hval i hi
    omega
  have hs2obj : ∀ i ∈ instances,
      (buildRelCache (get_related_api_objects s d instances).2 d
        (get_related_api_objects s d instances).1).2.obj i = s.obj i := by
    intro i hi
    rw [buildRelCache, buildRelCacheAux_obj_notMem _ _ _ _ _ (hinotrec i hi),
      hobjP i (hval i hi)]
  have hs2len : (buildRelCache (get_related_api_objects s d instances).2 d
      (get_related_api_objects s d instances).1).2.heap.length
      = (get_related_api_objects s d instances).2.heap.length := by
    rw [buildRelCache, buildRelCacheAux_length]
  have hcond : ¬((lk.get_current_to_attr level).2 = true ∧ instances ≠ [] ∧
      (lk.get_current_to_attr level).1 ∈ sc.fields
        (((buildRelCache (get_related_api_objects s d instances).2 d
          (get_related_api_objects s d instances).1).2.obj (instances.headD 0)).cls)) := by
    intro hcc
    apply hnoc
    refine ⟨hcc.1, hcc.2.1, ?_⟩
    have hhead : instances.headD 0 ∈ instances := by
      cases hcase : instances with
      | nil => exact absurd hcase hcc.2.1
      | cons a l => simp [hcase]
    rw [← hs2obj _ hhead]
    exact hcc.2.2
  have hmain : select_one_level sc s instances d lk level
      = .ok ((get_related_api_objects s d instances).1,
          assignLoop d (buildRelCache (get_related_api_objects s d instances).2 d
              (get_related_api_objects s d instances).1).1
            (lk.get_current_to_attr level).1 instances
            (buildRelCache (get_related_api_objects s d instances).2 d
              (get_related_api_objects s d instances).1).2) := by
    rw [select_one_level, if_neg hcond]
  refine ⟨_, hmain, ?_, ?_⟩
  · intro i hi
    have hval2 : ∀ j ∈ instances, j < (buildRelCache (get_related_api_objects s d instances).2 d
        (get_related_api_objects s d instances).1).2.heap.length := by
      intro j hj
      rw [hs2len]
      have := hval j hj
      omega
    have hsp := assignLoop_spec d
      (buildRelCache (get_related_api_objects s d instances).2 d
        (get_related_api_objects s d instances).1).1
      (lk.get_current_to_attr level).1 hta instances _ hval2 i hi
    have hbridge : assignValCompute
        (buildRelCache (get_related_api_objects s d instances).2 d
          (get_related_api_objects s d instances).1).2 d
        (buildRelCache (get_related_api_objects s d instances).2 d
          (get_related_api_objects s d instances).1).1 i
        = assignSpec s (get_related_api_objects s d instances).2 d
            (get_related_api_objects s d instances).1 i := by
      apply assignValCompute_bridge
      · rw [get_local_attr_value, get_local_attr_value, hs2obj i hi]
      · intro u
        exact buildRelCache_head (get_related_api_objects s d instances).2 d
          (get_related_api_objects s d instances).1 hndP u
    rw [← hbridge]
    exact hsp
  · intro r hr
    have hrnotinst : r ∉ instances := by
      intro hm
      have := hfreshP r hr
      have := hval r hm
      omega
    rw [obj_assignLoop_notMem _ _ _ _ _ _ hrnotinst]
    rw [buildRelCache]
    exact buildRelCacheAux_temp_cleared d _ _ _ hndP r hr

theorem select_one_level_conflict_spec (sc : Schema) (s : St) (instances : List Nat)
    (d : Descriptor) (lk : SelectAPIRelated) (level : Nat) (i0 : Nat) (rest : List Nat)
    (hinst : instances = i0 :: rest)
    (hval : ∀ i ∈ instances, i < s.heap.length)
    (has : (lk.get_current_to_attr level).2 = true)
    (hfld : (lk.get_current_to_attr level).1 ∈ sc.fields (s.obj i0).cls) :
    ∃ s', select_one_level sc s instances d lk level
        = .error (.attributeNameConflict, s') ∧
      ∀ j ∈ instances, s'.obj j = s.obj j := by
  have hfreshP := (grao_spec s d instances).2.2.2.2.2.1
  have hobjP := (grao_spec s d instances).2.2.2.2.1
  have hinotrec : ∀ i ∈ instances, i ∉ (get_related_api_objects s d instances).1 := by
    intro i hi hm
    have := hfreshP i hm
    have := hval i hi
    omega
  have hs2obj : ∀ i ∈ instances,
      (buildRelCache (get_related_api_objects s d instances).2 d
        (get_related_api_objects s d instances).1).2.obj i = s.obj i := by
    intro i hi
    rw [buildRelCache, buildRelCacheAux_obj_notMem _ _ _ _ _ (hinotrec i hi),
      hobjP i (hval i hi)]
  have hne : instances ≠ [] := by
    rw [hinst]
    exact List.cons_ne_nil _ _
  have hhead : instances.headD 0 = i0 := by
    rw [hinst]
    rfl
  have hcond : (lk.get_current_to_attr level).2 = true ∧ instances ≠ [] ∧
      (lk.get_current_to_attr level).1 ∈ sc.fields
        (((buildRelCache (get_related_api_objects s d instances).2 d
          (get_related_api_objects s d instances).1).2.obj (instances.headD 0)).cls) := by
    refine ⟨has, hne, ?_⟩
    rw [hhead, hs2obj i0 (by rw [hinst]; simp)]
    exact hfld
  refine ⟨(buildRelCache (get_related_api_objects s d instances).2 d
      (get_related_api_objects s d instances).1).2, ?_, ?_⟩
  · rw [select_one_level, if_pos hcond]
  · intro j hj
    exact hs2obj j hj

theorem select_one_level_err (sc : Schema) (s : St) (instances : List Nat)
    (d : Descriptor) (lk : SelectAPIRelated) (level : Nat) (es : Err × St)
    (h : select_one_level sc s instances d lk level = .error es) :
    es.1 = .attributeNameConflict := by
  rw [select_one_level] at h
  by_cases hc : (lk.get_current_to_attr level).2 = true ∧ instances ≠ [] ∧
      (lk.get_current_to_attr level).1 ∈ sc.fields
        (((buildRelCache (get_related_api_objects s d instances).2 d
          (get_related_api_objects s d instances).1).2.obj (instances.headD 0)).cls)
  · rw [if_pos hc] at h
    cases h
    rfl
  · rw [if_neg hc] at h
    cases h

/-! ### Anatomy of one traversal level (levelStep) -/

theorem stepFolPost_log (d : Descriptor) (sel : String) (allRel : List Nat) (s2 : St) :
    (stepFolPost d sel allRel s2).log = s2.log := by
  rw [stepFolPost]
  by_cases h : d.did ∈ s2.followed
  · simp only [if_pos h]
  · simp only [if_neg h]

theorem stepFolPost_heap (d : Descriptor) (sel : String) (allRel : List Nat) (s2 : St) :
    (stepFolPost d sel allRel s2).heap = s2.heap := by
  rw [stepFolPost]
  by_cases h : d.did ∈ s2.followed
  · simp only [if_pos h]
  · simp only [if_neg h]

theorem stepFolPost_done_fresh (d : Descriptor) (sel : String) (allRel : List Nat)
    (s2 : St) (h : d.did ∉ s2.followed) :
    (stepFolPost d sel allRel s2).done = s2.done ++ [(sel, allRel)] := by
  rw [stepFolPost]
  simp only [if_neg h]

theorem walkAll_some (s : St) (d : Descriptor) (t : String) (objs : List Nat) :
    walkAll s (some d) t objs = .ok (cacheWalkList s d objs) := by
  induction objs with
  | nil => rfl
  | cons i rest ih =>
    simp only [walkAll, walkOne, ih]
    rfl

theorem get_something_remote (sc : Schema) (s : St) (i : Nat) (t ta : String)
    (d : Descriptor) (hcls : sc.class_attr (s.obj i).cls t = some (.remote d))
    (hne : ¬ (t = ta)) :
    get_something_can_do_select_api sc s i t ta = .ok (some d, true, is_cached s i d) := by
  simp only [get_something_can_do_select_api, hcls]
  rw [if_neg hne]

theorem levelStep_reuse (sc : Schema) (lk : SelectAPIRelated) (t : String)
    (last : Bool) (level : Nat) (first : Nat) (rest : List Nat) (s : St)
    (cached : List Nat)
    (hsel : assocFind s.done (lk.get_current_select_to level) = some cached) :
    levelStep sc lk t last level (first :: rest) s
      = .ok (.next cached (addLog s (.reuse (lk.get_current_select_to level)))) := by
  simp only [levelStep, hsel]

theorem levelStep_fetch_eq (sc : Schema) (lk : SelectAPIRelated) (t : String)
    (last : Bool) (level : Nat) (first : Nat) (rest : List Nat) (s : St)
    (d : Descriptor)
    (hsel : assocFind s.done (lk.get_current_select_to level) = Option.none)
    (hcls : sc.class_attr (s.obj first).cls t = some (.remote d))
    (hne : ¬ (t = (lk.get_current_to_attr level).1))
    (hnc : is_cached s first d = false) :
    levelStep sc lk t last level (first :: rest) s
      = (match select_one_level sc
            (addLog s (.remoteFetch (lk.get_current_select_to level)))
            (first :: rest) d lk level with
         | .error es => .error es
         | .ok (allRel, s2) =>
           .ok (.next allRel (stepFolPost d (lk.get_current_select_to level) allRel s2))) := by
  have hgs := get_something_remote sc s first t (lk.get_current_to_attr level).1 d hcls hne
  rw [hnc] at hgs
  simp only [levelStep, hsel, hgs]
  rw [if_neg (show ¬ (true = false) by decide)]
  simp only [Option.isNone_some, Bool.and_false]
  rw [if_neg (show ¬ (false = true) by decide)]

theorem levelStep_fetch_log (sc : Schema) (lk : SelectAPIRelated) (t : String)
    (last : Bool) (level : Nat) (first : Nat) (rest : List Nat) (s : St)
    (d : Descriptor)
    (hsel : assocFind s.done (lk.get_current_select_to level) = Option.none)
    (hcls : sc.class_attr (s.obj first).cls t = some (.remote d))
    (hne : ¬ (t = (lk.get_current_to_attr level).1))
    (hnc : is_cached s first d = false) :
    (stepSt (levelStep sc lk t last level (first :: rest) s)).log
      = s.log ++ Event.remoteFetch (lk.get_current_select_to level)
          :: fetchTrace d (collect_uuids s d (first :: rest)) := by
  rw [levelStep_fetch_eq sc lk t last level first rest s d hsel hcls hne hnc]
  have hslog := sol_log sc (addLog s (.remoteFetch (lk.get_current_select_to level)))
    (first :: rest) d lk level
  have hcu : collect_uuids (addLog s (.remoteFetch (lk.get_current_select_to level))) d
      (first :: rest) = collect_uuids s d (first :: rest) := rfl
  cases hsol : select_one_level sc (addLog s (.remoteFetch (lk.get_current_select_to level)))
      (first :: rest) d lk level with
  | error es =>
    obtain ⟨e, serr⟩ := es
    rw [hsol] at hslog
    rw [show solSt (.error (e, serr)) = serr from rfl] at hslog
    show serr.log = _
    rw [hslog, hcu]
    simp [addLog]
  | ok pr =>
    obtain ⟨allRel, s2⟩ := pr
    rw [hsol] at hslog
    rw [show solSt (.ok (allRel, s2)) = s2 from rfl] at hslog
    show (stepFolPost d (lk.get_current_select_to level) allRel s2).log = _
    rw [stepFolPost_log, hslog, hcu]
    simp [addLog]

theorem levelStep_fetch_records (sc : Schema) (lk : SelectAPIRelated) (t : String)
    (last : Bool) (level : Nat) (first : Nat) (rest : List Nat) (s : St)
    (d : Descriptor)
    (hsel : assocFind s.done (lk.get_current_select_to level) = Option.none)
    (hcls : sc.class_attr (s.obj first).cls t = some (.remote d))
    (hne : ¬ (t = (lk.get_current_to_attr level).1))
    (hnc : is_cached s first d = false)
    (hfol : d.did ∉ s.followed)
    (objs' : List Nat) (s4 : St)
    (hok : levelStep sc lk t last level (first :: rest) s = .ok (.next objs' s4)) :
    assocFind s4.done (lk.get_current_select_to level) = some objs' := by
  rw [levelStep_fetch_eq sc lk t last level first rest s d hsel hcls hne hnc] at hok
  have hsdone := sol_done sc (addLog s (.remoteFetch (lk.get_current_select_to level)))
    (first :: rest) d lk level
  have hsfol := sol_followed sc (addLog s (.remoteFetch (lk.get_current_select_to level)))
    (first :: rest) d lk level
  cases hsol : select_one_level sc (addLog s (.remoteFetch (lk.get_current_select_to level)))
      (first :: rest) d lk level with
  | error es =>
    rw [hsol] at hok
    cases hok
  | ok pr =>
    obtain ⟨allRel, s2⟩ := pr
    rw [hsol] at hok hsdone hsfol
    rw [show solSt (.ok (allRel, s2)) = s2 from rfl] at hsdone hsfol
    have hs2done : s2.done = s.done := hsdone
    have hs2fol : s2.followed = s.followed := hsfol
    have hf2 : d.did ∉ s2.followed := by
      rw [hs2fol]
      exact hfol
    have hinj : StepOut.next allRel (stepFolPost d (lk.get_current_select_to level) allRel s2)
        = StepOut.next objs' s4 := by
      cases hok
      rfl
    cases hinj
    rw [stepFolPost_done_fresh _ _ _ _ hf2, hs2done,
      assocFind_append_right _ _ _ hsel]
    simp [assocFind]

theorem levelStep_cacheRead (sc : Schema) (lk : SelectAPIRelated) (t : String)
    (last : Bool) (level : Nat) (first : Nat) (rest : List Nat) (s : St)
    (d : Descriptor)
    (hsel : assocFind s.done (lk.get_current_select_to level) = Option.none)
    (hcls : sc.class_attr (s.obj first).cls t = some (.remote d))
    (hne : ¬ (t = (lk.get_current_to_attr level).1))
    (hc : is_cached s first d = true) :
    levelStep sc lk t last level (first :: rest) s
      = .ok (.next (cacheWalkList s d (first :: rest))
          (addLog s (.cacheRead (lk.get_current_select_to level)))) := by
  have hgs := get_something_remote sc s first t (lk.get_current_to_attr level).1 d hcls hne
  rw [hc] at hgs
  simp only [levelStep, hsel, hgs]
  rw [if_neg (show ¬ (true = false) by decide)]
  simp only [Option.isNone_some, Bool.and_false]
  rw [if_neg (show ¬ (false = true) by decide)]
  rw [walkAll_some]
  rfl

theorem levelStep_unsupported (sc : Schema) (lk : SelectAPIRelated) (t : String)
    (level : Nat) (first : Nat) (rest : List Nat) (s : St) (b : Bool)
    (hsel : assocFind s.done (lk.get_current_select_to level) = Option.none)
    (hgs : get_something_can_do_select_api sc s first t
        ((lk.get_current_to_attr level).1) = .ok (Option.none, true, b)) :
    levelStep sc lk t true level (first :: rest) s
      = .error (.unsupportedTerminal, s) := by
  simp only [levelStep, hsel, hgs]
  rw [if_neg (show ¬ (true = false) by decide)]
  simp only [Option.isNone_none, Bool.and_true]
  simp

theorem levelStep_remote_no_unsupported (sc : Schema) (lk : SelectAPIRelated)
    (t : String) (last : Bool) (level : Nat) (first : Nat) (rest : List Nat) (s : St)
    (d : Descriptor)
    (hsel : assocFind s.done (lk.get_current_select_to level) = Option.none)
    (hcls : sc.class_attr (s.obj first).cls t = some (.remote d))
    (hne : ¬ (t = (lk.get_current_to_attr level).1)) :
    stepErr (levelStep sc lk t last level (first :: rest) s)
      ≠ some Err.unsupportedTerminal := by
  cases hcache : is_cached s first d with
  | true =>
    rw [levelStep_cacheRead sc lk t last level first rest s d hsel hcls hne hcache]
    simp [stepErr]
  | false =>
    rw [levelStep_fetch_eq sc lk t last level first rest s d hsel hcls hne hcache]
    cases hsol : select_one_level sc
        (addLog s (.remoteFetch (lk.get_current_select_to level)))
        (first :: rest) d lk level with
    | error es =>
      have hconf := select_one_level_err sc _ _ d lk level es hsol
      obtain ⟨e, serr⟩ := es
      show stepErr (.error (e, serr)) ≠ some Err.unsupportedTerminal
      simp only [stepErr]
      intro hcontra
      rw [show e = Err.attributeNameConflict from hconf] at hcontra
      cases hcontra
    | ok pr =>
      obtain ⟨allRel, s2⟩ := pr
      show stepErr (.ok (.next allRel _)) ≠ some Err.unsupportedTerminal
      simp [stepErr]

theorem levelStep_ambiguous (sc : Schema) (lk : SelectAPIRelated) (t : String)
    (last : Bool) (level : Nat) (first : Nat) (rest : List Nat) (s : St)
    (d : Descriptor)
    (hsel : assocFind s.done (lk.get_current_select_to level) = Option.none)
    (hcls : sc.class_attr (s.obj first).cls t = some (.remote d))
    (heq : t = (lk.get_current_to_attr level).1) :
    levelStep sc lk t last level (first :: rest) s
      = .error (.ambiguousConfiguration, s) := by
  have hgs : get_something_can_do_select_api sc s first t
      ((lk.get_current_to_attr level).1) = .error .ambiguousConfiguration := by
    simp only [get_something_can_do_select_api, hcls]
    rw [if_pos heq]
  simp only [levelStep, hsel, hgs]


theorem popAllTemps_obj_notMem (d : Descriptor) (recs : List Nat) :
    ∀ (s : St) (j : Nat), j ∉ recs → (popAllTemps s d recs).obj j = s.obj j := by
  induction recs with
  | nil => intro s j _; rfl
  | cons r rest ih =>
    intro s j hj
    have hjr : j ≠ r := fun he => hj (by simp [he])
    have hjrest : j ∉ rest := fun he => hj (by simp [he])
    show (popAllTemps (rel_obj_attr s d r).2 d rest).obj j = s.obj j
    rw [ih _ _ hjrest, rel_obj_attr_obj_ne _ _ _ _ hjr]

theorem popAllTemps_temp_cleared (d : Descriptor) (recs : List Nat) :
    ∀ (s : St), recs.Nodup → ∀ r ∈ recs,
    assocFind ((popAllTemps s d recs).obj r).attrs (temp_identifier_name d)
      = Option.none := by
  induction recs with
  | nil => intro s _ r hr; simp at hr
  | cons r0 rest ih =>
    intro s hnd r hr
    have hnd' := List.nodup_cons.mp hnd
    rcases List.mem_cons.mp hr with hre | hrm
    · subst hre
      show assocFind ((popAllTemps (rel_obj_attr s d r).2 d rest).obj r).attrs _
        = Option.none
      rw [popAllTemps_obj_notMem _ _ _ _ hnd'.1]
      exact rel_obj_attr_temp_cleared s d r
    · exact ih _ hnd'.2 r hrm

theorem get_value_uncached (s : St) (d : Descriptor) (i : Nat)
    (hnc : is_cached s i d = false) :
    ∃ v, get_value s d i
        = (v, set_cache (popAllTemps (get_related_api_objects s d [i]).2 d
            (get_related_api_objects s d [i]).1) i d v) ∧
      (∀ r' ∈ v.refs, r' ∈ (get_related_api_objects s d [i]).1) := by
  have hif : ¬ (is_cached s i d = true) := by
    rw [hnc]
    decide
  rw [get_value, if_neg hif]
  refine ⟨_, rfl, ?_⟩
  intro r' hr'
  revert hr'
  generalize (get_related_api_objects s d [i]).1 = recs
  generalize get_local_attr_value
    (popAllTemps (get_related_api_objects s d [i]).2 d recs) d i = glv
  intro hr'
  cases glv with
  | many vs =>
    simpa [Val.refs] using hr'
  | single u =>
    cases recs with
    | nil => simp [Val.refs] at hr'
    | cons r0 rtl =>
      simp only [Val.refs, List.mem_singleton] at hr'
      subst hr'
      simp

theorem select_one_level_ok_all_cached (sc : Schema) (s : St) (instances : List Nat)
    (d : Descriptor) (lk : SelectAPIRelated) (level : Nat) (allRel : List Nat)
    (s' : St) (i : Nat) (hmem : i ∈ instances) (hival : i < s.heap.length)
    (hok : select_one_level sc s instances d lk level = .ok (allRel, s')) :
    is_cached s' i d = true := by
  rw [select_one_level] at hok
  by_cases hc : (lk.get_current_to_attr level).2 = true ∧ instances ≠ [] ∧
      (lk.get_current_to_attr level).1 ∈ sc.fields
        (((buildRelCache (get_related_api_objects s d instances).2 d
          (get_related_api_objects s d instances).1).2.obj (instances.headD 0)).cls)
  · rw [if_pos hc] at hok
    cases hok
  · rw [if_neg hc] at hok
    have hs' : s' = assignLoop d
        (buildRelCache (get_related_api_objects s d instances).2 d
          (get_related_api_objects s d instances).1).1
        (lk.get_current_to_attr level).1 instances
        (buildRelCache (get_related_api_objects s d instances).2 d
          (get_related_api_objects s d instances).1).2 := by
      cases hok
      rfl
    subst hs'
    apply assignLoop_all_cached _ _ _ _ _ _ hmem
    rw [buildRelCache, buildRelCacheAux_length]
    have := (grao_spec s d instances).1
    omega

theorem resolve_first_level_error (sc : Schema) (s : St) (first : Nat)
    (rrest : List Nat) (lk : SelectAPIRelated) (rest' : List SelectAPIRelated)
    (t : String) (ts : List String) (e : Err)
    (hsplit : splitSep lk.select_through = t :: ts)
    (hstep : levelStep sc lk t ts.isEmpty 0 (first :: rrest)
        { s with done := [], followed := [] }
      = .error (e, { s with done := [], followed := [] })) :
    select_related_api_objects sc s (first :: rrest) (lk :: rest')
      = .error (e, { s with done := [], followed := [] }) := by
  rw [select_related_api_objects, if_neg (by simp : ¬ (first :: rrest = []))]
  have h0 : assocFind ({ s with done := [], followed := [] } : St).done lk.select_to
      = (Option.none : Option (List Nat)) := rfl
  have hpl : processLookup sc (first :: rrest) { s with done := [], followed := [] } lk
      = .error (e, { s with done := [], followed := [] }) := by
    simp only [processLookup, h0, hsplit, walkLevels, hstep]
  simp only [selectLoop, hpl]

/-! ### Claim theorems -/

/-- C1: for a call to `get_related_api_objects` over a non-empty record
list, the deduplicated identifier list contains each identifier
occurrence exactly once (no duplicates, same membership as the
occurrence list), `batch_method` is invoked exactly once with that list
when present, and otherwise `single_method` is invoked exactly once per
distinct identifier. -/
theorem c1_resolveBatch_dedup (s : St) (d : Descriptor) (instances : List Nat)
    (hne : instances ≠ []) :
    (collect_uuids s d instances).Nodup ∧
    (∀ v, v ∈ collect_uuids s d instances ↔ v ∈ occurrence_ids s d instances) ∧
    (∀ f, d.batch_method = some f →
      (get_related_api_objects s d instances).2.log
        = s.log ++ [Event.batchCall d.field_name (collect_uuids s d instances)]) ∧
    (d.batch_method = Option.none →
      (get_related_api_objects s d instances).2.log
        = s.log ++ (collect_uuids s d instances).map (Event.singleCall d.field_name)) := by
  refine ⟨collect_uuids_nodup s d instances, collect_uuids_mem s d instances, ?_, ?_⟩
  · intro f hf
    rw [(grao_spec s d instances).2.1, fetchTrace, hf]
  · intro hf
    rw [(grao_spec s d instances).2.1, fetchTrace, hf]

/-- C1 witness: two records with identifier occurrences
`[u1, u2, u1]` and `u2` (four occurrences, two distinct); the
single-method fallback is called once per distinct identifier. -/
theorem c1_resolveBatch_dedup_witness :
    (get_related_api_objects c1st c1d [0, 1]).2.log
      = c1st.log ++ (collect_uuids c1st c1d [0, 1]).map (Event.singleCall "a") :=
  (c1_resolveBatch_dedup c1st c1d [0, 1] (by decide)).2.2.2 rfl

/-- C2 counterexample: the two requested lookups `"y__a"` and `"y__b"`
share the canonical prefix `"y"`, yet the resolved run walks the local
prefix `"y"` twice (one localWalk event per lookup): local prefixes are
never recorded in `done_queries`, so the claim's "every distinct
canonical path prefix is fetched/walked at most once" is false. -/
theorem c2_counterexample :
    resOk c2run = true ∧ localWalkCount (resSt c2run).log "y" = 2 := by decide

/-- C2 amended: a level whose canonical prefix is recorded in
`done_queries` reuses the cached object list with no fetch or walk at
that level; and a remote level that fetches with a not-yet-followed
descriptor records its prefix in `done_queries` mapped to the fetched
list, so later lookups sharing that full prefix reuse it.  (Local
prefixes are never recorded and are re-walked per lookup, as the
counterexample shows.) -/
theorem c2_prefix_reuse (sc : Schema) (lk : SelectAPIRelated) (t : String)
    (last : Bool) (level : Nat) (first : Nat) (rest : List Nat) (s : St) :
    (∀ cached,
      assocFind s.done (lk.get_current_select_to level) = some cached →
      levelStep sc lk t last level (first :: rest) s
        = .ok (.next cached (addLog s (.reuse (lk.get_current_select_to level))))) ∧
    (∀ (d : Descriptor) (objs' : List Nat) (s4 : St),
      assocFind s.done (lk.get_current_select_to level) = Option.none →
      sc.class_attr (s.obj first).cls t = some (.remote d) →
      ¬ (t = (lk.get_current_to_attr level).1) →
      is_cached s first d = false →
      d.did ∉ s.followed →
      levelStep sc lk t last level (first :: rest) s = .ok (.next objs' s4) →
      assocFind s4.done (lk.get_current_select_to level) = some objs') := by
  constructor
  · intro cached hsel
    exact levelStep_reuse sc lk t last level first rest s cached hsel
  · intro d objs' s4 hsel hcls hne hnc hfol hok
    exact levelStep_fetch_records sc lk t last level first rest s d hsel hcls hne hnc
      hfol objs' s4 hok

/-- C2 witness: a level whose prefix `"y"` is already in `done_queries`
reuses the recorded list `[7]` and performs no fetch. -/
theorem c2_prefix_reuse_witness :
    levelStep c2sc c2wlk "y" false 0 [0] c2wst
      = .ok (.next [7] (addLog c2wst (.reuse "y"))) :=
  (c2_prefix_reuse c2sc c2wlk "y" false 0 0 [] c2wst).1 [7] (by decide)

/-- C3 counterexample: the first record carries a cached value for the
binding but the second does not; the run reads caches only (the
`is_fetched` check inspects the first element alone), issuing zero
`resolveBatch` calls although an element of the list lacks a cached
value — contradicting "if any element lacks a cached value then exactly
one resolveBatch call is made". -/
theorem c3_counterexample :
    is_cached c3st 1 c3d = false ∧
    resOk c3run = true ∧
    fetchCount (resSt c3run).log = 0 := by decide

/-- C3 amended: at a remote level, if the FIRST element of the current
object list lacks a cached value for the binding then exactly one
`resolveBatch` call is made over the entire current list (one
batch_method call with the identifiers collected from the whole list, or
one single_method call per distinct identifier); if the first element
has a cached value, no fetch is made and the per-record cached values
are read directly (elements without a cache entry read as null). -/
theorem c3_first_element_gate (sc : Schema) (lk : SelectAPIRelated) (t : String)
    (last : Bool) (level : Nat) (first : Nat) (rest : List Nat) (s : St)
    (d : Descriptor)
    (hsel : assocFind s.done (lk.get_current_select_to level) = Option.none)
    (hcls : sc.class_attr (s.obj first).cls t = some (.remote d))
    (hne : ¬ (t = (lk.get_current_to_attr level).1)) :
    (is_cached s first d = false →
      (stepSt (levelStep sc lk t last level (first :: rest) s)).log
        = s.log ++ Event.remoteFetch (lk.get_current_select_to level)
            :: fetchTrace d (collect_uuids s d (first :: rest))) ∧
    (is_cached s first d = true →
      levelStep sc lk t last level (first :: rest) s
        = .ok (.next (cacheWalkList s d (first :: rest))
            (addLog s (.cacheRead (lk.get_current_select_to level))))) := by
  constructor
  · intro hnc
    exact levelStep_fetch_log sc lk t last level first rest s d hsel hcls hne hnc
  · intro hc
    exact levelStep_cacheRead sc lk t last level first rest s d hsel hcls hne hc

/-- C3 witness: with the first element cached, the level reads caches and
makes no fetch. -/
theorem c3_first_element_gate_witness :
    levelStep c3sc (SelectAPIRelated.make "a" Option.none) "a" true 0 [0, 1] c3st
      = .ok (.next (cacheWalkList c3st c3d [0, 1])
          (addLog c3st (.cacheRead "a_data"))) :=
  (c3_first_element_gate c3sc (SelectAPIRelated.make "a" Option.none) "a" true 0 0 [1]
    c3st c3d (by decide) rfl (by decide)).2 (by decide)

/-- C4: when a remote level is resolved by `select_one_level` (with the
destination name distinct from the binding's field name, as the engine's
classification enforces, and no field conflict), the call succeeds —
never raising an error for unmatched identifiers — and assigns each
record the value described by `assignSpec`: a scalar identifier gets the
first fetched record whose correlation key matches, or null when none
matches; a list of identifiers gets the ordered list of the first match
per position with unmatched identifiers skipped (so `[u1, u2, u1]` with
matches for `u1`, `u2` yields `[rec(u1), rec(u2), rec(u1)]`); the value
is written both to the binding cache and to the destination attribute. -/
theorem c4_matching_semantics (sc : Schema) (s : St) (instances : List Nat)
    (d : Descriptor) (lk : SelectAPIRelated) (level : Nat)
    (hval : ∀ i ∈ instances, i < s.heap.length)
    (hta : (lk.get_current_to_attr level).1 ≠ d.field_name)
    (hnoc : ¬((lk.get_current_to_attr level).2 = true ∧ instances ≠ [] ∧
      (lk.get_current_to_attr level).1 ∈ sc.fields (s.obj (instances.headD 0)).cls)) :
    ∃ s', select_one_level sc s instances d lk level
        = .ok ((get_related_api_objects s d instances).1, s') ∧
      (∀ i ∈ instances,
        assocFind (s'.obj i).cache d.field_name
          = some (assignSpec s (get_related_api_objects s d instances).2 d
              (get_related_api_objects s d instances).1 i) ∧
        assocFind (s'.obj i).attrs (lk.get_current_to_attr level).1
          = some (assignSpec s (get_related_api_objects s d instances).2 d
              (get_related_api_objects s d instances).1 i)) := by
  obtain ⟨s', hok, hassign, _⟩ :=
    select_one_level_ok_spec sc s instances d lk level hval hta hnoc
  exact ⟨s', hok, hassign⟩

/-- C4 witness: the record with identifier list `[u1, u2, u1]` and a
fetch returning records for `u1`, `u2` (and a duplicate for `u1`). -/
theorem c4_matching_semantics_witness :
    ∃ s', select_one_level c4sc c4st [0] c4d c4lk 0
        = .ok ((get_related_api_objects c4st c4d [0]).1, s') ∧
      (∀ i ∈ [0],
        assocFind (s'.obj i).cache c4d.field_name
          = some (assignSpec c4st (get_related_api_objects c4st c4d [0]).2 c4d
              (get_related_api_objects c4st c4d [0]).1 i) ∧
        assocFind (s'.obj i).attrs (c4lk.get_current_to_attr 0).1
          = some (assignSpec c4st (get_related_api_objects c4st c4d [0]).2 c4d
              (get_related_api_objects c4st c4d [0]).1 i)) :=
  c4_matching_semantics c4sc c4st [0] c4d c4lk 0 (by decide) (by decide) (by decide)

/-- C5: when the level is a final write target and the destination
attribute collides with a declared field of the element type,
`select_one_level` fails with the AttributeNameConflict error, and the
error is raised before any destination attribute or binding-cache write:
every supplied record is left exactly as it was. -/
theorem c5_conflict_before_writes (sc : Schema) (s : St) (instances : List Nat)
    (d : Descriptor) (lk : SelectAPIRelated) (level : Nat) (i0 : Nat)
    (rest : List Nat)
    (hinst : instances = i0 :: rest)
    (hval : ∀ i ∈ instances, i < s.heap.length)
    (has : (lk.get_current_to_attr level).2 = true)
    (hfld : (lk.get_current_to_attr level).1 ∈ sc.fields (s.obj i0).cls) :
    ∃ s', select_one_level sc s instances d lk level
        = .error (.attributeNameConflict, s') ∧
      ∀ j ∈ instances, s'.obj j = s.obj j :=
  select_one_level_conflict_spec sc s instances d lk level i0 rest hinst hval has hfld

/-- C5 witness: destination `"name"` collides with the declared field
`"name"` on the record's model. -/
theorem c5_conflict_before_writes_witness :
    ∃ s', select_one_level c5sc c5st [0] c5d c5lk 0
        = .error (.attributeNameConflict, s') ∧
      ∀ j ∈ [0], s'.obj j = c5st.obj j :=
  c5_conflict_before_writes c5sc c5st [0] c5d c5lk 0 0 [] rfl (by decide) (by decide)
    (by decide)

/-- C7 counterexample: the path `"y"` terminates in a local relation that
produces further elements (`obj 0` holds `y = [obj 1]`), yet resolve
raises the UnsupportedTerminalAttribute error — the source raises its
terminal ValueError for every non-remote final segment, so the claim's
converse ("a path terminating in ... such a relation does not raise this
error") is false. -/
theorem c7_counterexample :
    resErr c7run = some Err.unsupportedTerminal ∧
    (c7st.obj 0).attrs = [("y", Val.objList [1])] := by decide

/-- C7 amended: at the final segment of a path, classification yielding
no remote binding raises UnsupportedTerminalAttribute — even when the
attribute is a local relation producing further elements — while a final
segment classified as a remote binding never raises this error. -/
theorem c7_terminal_must_be_remote :
    (∀ (sc : Schema) (lk : SelectAPIRelated) (t : String) (level first : Nat)
        (rest : List Nat) (s : St) (b : Bool),
      assocFind s.done (lk.get_current_select_to level) = Option.none →
      get_something_can_do_select_api sc s first t ((lk.get_current_to_attr level).1)
        = .ok (Option.none, true, b) →
      levelStep sc lk t true level (first :: rest) s
        = .error (.unsupportedTerminal, s)) ∧
    (∀ (sc : Schema) (lk : SelectAPIRelated) (t : String) (last : Bool)
        (level first : Nat) (rest : List Nat) (s : St) (d : Descriptor),
      assocFind s.done (lk.get_current_select_to level) = Option.none →
      sc.class_attr (s.obj first).cls t = some (.remote d) →
      ¬ (t = (lk.get_current_to_attr level).1) →
      stepErr (levelStep sc lk t last level (first :: rest) s)
        ≠ some Err.unsupportedTerminal) := by
  constructor
  · intro sc lk t level first rest s b hsel hgs
    exact levelStep_unsupported sc lk t level first rest s b hsel hgs
  · intro sc lk t last level first rest s d hsel hcls hne
    exact levelStep_remote_no_unsupported sc lk t last level first rest s d hsel hcls hne

/-- C7 witness: the terminal local-relation segment of the
counterexample scenario raises exactly the terminal error at its level. -/
theorem c7_terminal_must_be_remote_witness :
    levelStep c7sc (SelectAPIRelated.make "y" Option.none) "y" true 0 [0, 1] c7st
      = .error (.unsupportedTerminal, c7st) :=
  c7_terminal_must_be_remote.1 c7sc (SelectAPIRelated.make "y" Option.none) "y" 0 0 [1]
    c7st false (by decide) rfl

/-- C8: when the destination attribute name at a level equals the
traversed attribute name and that attribute classifies as a remote
binding, classification raises the AmbiguousConfiguration error
(`through_attr must not equal to to_attr`), and a resolve call whose
first lookup hits this at level 0 aborts with that error rather than
being silently accepted. -/
theorem c8_ambiguous_configuration :
    (∀ (sc : Schema) (s : St) (i : Nat) (t : String) (d : Descriptor),
      sc.class_attr (s.obj i).cls t = some (.remote d) →
      get_something_can_do_select_api sc s i t t = .error .ambiguousConfiguration) ∧
    (∀ (sc : Schema) (s : St) (first : Nat) (rrest : List Nat)
        (lk : SelectAPIRelated) (rest' : List SelectAPIRelated) (t : String)
        (ts : List String) (d : Descriptor),
      splitSep lk.select_through = t :: ts →
      t = (lk.get_current_to_attr 0).1 →
      sc.class_attr (s.obj first).cls t = some (.remote d) →
      select_related_api_objects sc s (first :: rrest) (lk :: rest')
        = .error (.ambiguousConfiguration, { s with done := [], followed := [] })) := by
  constructor
  · intro sc s i t d hcls
    simp only [get_something_can_do_select_api, hcls]
    simp
  · intro sc s first rrest lk rest' t ts d hsplit heq hcls
    apply resolve_first_level_error sc s first rrest lk rest' t ts
      Err.ambiguousConfiguration hsplit
    exact levelStep_ambiguous sc lk t ts.isEmpty 0 first rrest
      { s with done := [], followed := [] } d rfl hcls heq

/-- C8 witness: lookup `"a"` with destination `"a"` on a remote binding
aborts the whole resolve with AmbiguousConfiguration. -/
theorem c8_ambiguous_configuration_witness :
    select_related_api_objects c8sc c8st [0] [c8lk]
      = .error (.ambiguousConfiguration, { c8st with done := [], followed := [] }) :=
  c8_ambiguous_configuration.2 c8sc c8st 0 [] c8lk [] "a" [] c8d (by decide) (by decide)
    rfl

/-- C9: two path specifications are equal exactly when their canonical
destination paths (`select_to`) are equal; equal specifications have
equal hashes; and a queued lookup whose destination path is already in
`done_queries` is skipped as a unit (processed with no state change and
no fetch), which is how same-destination requests collapse to one unit
of work. -/
theorem c9_eq_hash_dedup :
    (∀ a b : SelectAPIRelated, a.eqb b = true ↔ a.select_to = b.select_to) ∧
    (∀ a b : SelectAPIRelated, a.eqb b = true → a.hashb = b.hashb) ∧
    (∀ (sc : Schema) (roots : List Nat) (s : St) (lk : SelectAPIRelated),
      (assocFind s.done lk.select_to).isSome = true →
      processLookup sc roots s lk = .ok s) := by
  refine ⟨?_, ?_, ?_⟩
  · intro a b
    rw [SelectAPIRelated.eqb]
    exact beq_iff_eq
  · intro a b h
    have he : a.select_to = b.select_to := by
      rw [SelectAPIRelated.eqb] at h
      exact beq_iff_eq.mp h
    rw [SelectAPIRelated.hashb, SelectAPIRelated.hashb, he]
  · intro sc roots s lk h
    cases hfind : assocFind s.done lk.select_to with
    | none =>
      rw [hfind] at h
      cases h
    | some v => simp only [processLookup, hfind]

/-- C9 witness: the differently-spelled requests `"alpha" → "t"` and
`"beta" → "t"` hash alike, and a lookup whose destination `"t"` is
already recorded is skipped without any work. -/
theorem c9_eq_hash_dedup_witness :
    c9lkA.hashb = c9lkB.hashb ∧ processLookup c9sc [0] c9st c9lkA = .ok c9st :=
  ⟨c9_eq_hash_dedup.2.1 c9lkA c9lkB (by decide),
   c9_eq_hash_dedup.2.2 c9sc [0] c9st c9lkA (by decide)⟩

/-- C10: the transient correlation key written onto fetched records is
stripped during matching in both paths.  Batch path: after a successful
`select_one_level`, every fetched record has no transient-identifier
attribute, and every record referenced by a per-record cached value is
one of those stripped fetched records.  Single-record `get_value` path:
every record referenced by the returned (and cached) value has its
transient-identifier attribute removed. -/
theorem c10_transient_key_stripped :
    (∀ (sc : Schema) (s : St) (instances : List Nat) (d : Descriptor)
        (lk : SelectAPIRelated) (level : Nat),
      (∀ i ∈ instances, i < s.heap.length) →
      (lk.get_current_to_attr level).1 ≠ d.field_name →
      ¬((lk.get_current_to_attr level).2 = true ∧ instances ≠ [] ∧
        (lk.get_current_to_attr level).1 ∈ sc.fields (s.obj (instances.headD 0)).cls) →
      ∃ s', select_one_level sc s instances d lk level
          = .ok ((get_related_api_objects s d instances).1, s') ∧
        (∀ r ∈ (get_related_api_objects s d instances).1,
          assocFind (s'.obj r).attrs (temp_identifier_name d) = Option.none) ∧
        (∀ i ∈ instances, ∀ r' ∈ (get_cache_value s' i d).refs,
          assocFind (s'.obj r').attrs (temp_identifier_name d) = Option.none)) ∧
    (∀ (s : St) (d : Descriptor) (i : Nat),
      is_cached s i d = false →
      ∀ r' ∈ (get_value s d i).1.refs,
        assocFind (((get_value s d i).2).obj r').attrs (temp_identifier_name d)
          = Option.none) := by
  constructor
  · intro sc s instances d lk level hval hta hnoc
    obtain ⟨s', hok, hassign, hstrip⟩ :=
      select_one_level_ok_spec sc s instances d lk level hval hta hnoc
    refine ⟨s', hok, hstrip, ?_⟩
    intro i hi r' hr'
    have hcv : get_cache_value s' i d
        = assignSpec s (get_related_api_objects s d instances).2 d
            (get_related_api_objects s d instances).1 i := by
      rw [get_cache_value, (hassign i hi).1]
      rfl
    rw [hcv] at hr'
    exact hstrip r' (assignSpec_refs s (get_related_api_objects s d instances).2 d
      (get_related_api_objects s d instances).1 i r' hr')
  · intro s d i hnc r' hr'
    obtain ⟨v, heq, hrefs⟩ := get_value_uncached s d i hnc
    rw [heq] at hr'
    rw [heq]
    show assocFind ((set_cache (popAllTemps (get_related_api_objects s d [i]).2 d
        (get_related_api_objects s d [i]).1) i d v).obj r').attrs
      (temp_identifier_name d) = Option.none
    have hattrs := attrs_set_cache (popAllTemps (get_related_api_objects s d [i]).2 d
      (get_related_api_objects s d [i]).1) i r' d v
    rw [hattrs]
    exact popAllTemps_temp_cleared d (get_related_api_objects s d [i]).1
      (get_related_api_objects s d [i]).2 ((grao_spec s d [i]).2.2.2.2.2.2)
      r' (hrefs r' hr')

/-- C10 witness: the batch path on a concrete scenario (a record whose
fetch returns one matching and one keyless record). -/
theorem c10_transient_key_stripped_witness :
    ∃ s', select_one_level c10sc c10st [0] c10d c10lk 0
        = .ok ((get_related_api_objects c10st c10d [0]).1, s') ∧
      (∀ r ∈ (get_related_api_objects c10st c10d [0]).1,
        assocFind (s'.obj r).attrs (temp_identifier_name c10d) = Option.none) ∧
      (∀ i ∈ [0], ∀ r' ∈ (get_cache_value s' i c10d).refs,
        assocFind (s'.obj r').attrs (temp_identifier_name c10d) = Option.none) :=
  c10_transient_key_stripped.1 c10sc c10st [0] c10d c10lk 0 (by decide) (by decide)
    (by decide)


/-! ### State monotonicity through the traversal (for the re-resolve claim) -/

theorem obj_heap_eq (s1 s2 : St) (h : s1.heap = s2.heap) (j : Nat) :
    s1.obj j = s2.obj j := by
  rw [St.obj, St.obj, h]

theorem is_cached_heap_eq (s1 s2 : St) (h : s1.heap = s2.heap) (j : Nat)
    (d : Descriptor) : is_cached s1 j d = is_cached s2 j d := by
  rw [is_cached, is_cached, obj_heap_eq s1 s2 h]

theorem levelStep_state_mono (sc : Schema) (lk : SelectAPIRelated) (t : String)
    (last : Bool) (level : Nat) (objs : List Nat) (s : St) :
    (∀ (j : Nat) (d' : Descriptor), j < s.heap.length → is_cached s j d' = true →
      is_cached (stepSt (levelStep sc lk t last level objs s)) j d' = true) ∧
    s.heap.length ≤ (stepSt (levelStep sc lk t last level objs s)).heap.length ∧
    (∀ j, j < s.heap.length →
      ((stepSt (levelStep sc lk t last level objs s)).obj j).cls = (s.obj j).cls) := by
  cases objs with
  | nil => exact ⟨fun j d' _ h => h, Nat.le_refl _, fun j _ => rfl⟩
  | cons first rest =>
    cases hfind : assocFind s.done (lk.get_current_select_to level) with
    | some cached =>
      simp only [levelStep, hfind]
      exact ⟨fun j d' _ h => h, Nat.le_refl _, fun j _ => rfl⟩
    | none =>
      cases hgs : get_something_can_do_select_api sc s first t
          ((lk.get_current_to_attr level).1) with
      | error e =>
        simp only [levelStep, hfind, hgs]
        exact ⟨fun j d' _ h => h, Nat.le_refl _, fun j _ => rfl⟩
      | ok trip =>
        obtain ⟨something, attr_found, is_fetched⟩ := trip
        simp only [levelStep, hfind, hgs]
        by_cases haf : attr_found = false
        · rw [if_pos haf]
          exact ⟨fun j d' _ h => h, Nat.le_refl _, fun j _ => rfl⟩
        · rw [if_neg haf]
          by_cases hterm : (last && something.isNone) = true
          · rw [if_pos hterm]
            exact ⟨fun j d' _ h => h, Nat.le_refl _, fun j _ => rfl⟩
          · rw [if_neg hterm]
            cases something with
            | none =>
              cases is_fetched with
              | false =>
                cases hwalk : walkAll
                    (addLog s (.localWalk (lk.get_current_select_to level)))
                    Option.none t (first :: rest) with
                | error e =>
                  simp only [hwalk]
                  exact ⟨fun j d' _ h => h, Nat.le_refl _, fun j _ => rfl⟩
                | ok objs2 =>
                  simp only [hwalk]
                  exact ⟨fun j d' _ h => h, Nat.le_refl _, fun j _ => rfl⟩
              | true =>
                cases hwalk : walkAll
                    (addLog s (.localWalk (lk.get_current_select_to level)))
                    Option.none t (first :: rest) with
                | error e =>
                  simp only [hwalk]
                  exact ⟨fun j d' _ h => h, Nat.le_refl _, fun j _ => rfl⟩
                | ok objs2 =>
                  simp only [hwalk]
                  exact ⟨fun j d' _ h => h, Nat.le_refl _, fun j _ => rfl⟩
            | some d =>
              cases is_fetched with
              | true =>
                cases hwalk : walkAll
                    (addLog s (.cacheRead (lk.get_current_select_to level)))
                    (some d) t (first :: rest) with
                | error e =>
                  simp only [hwalk]
                  exact ⟨fun j d' _ h => h, Nat.le_refl _, fun j _ => rfl⟩
                | ok objs2 =>
                  simp only [hwalk]
                  exact ⟨fun j d' _ h => h, Nat.le_refl _, fun j _ => rfl⟩
              | false =>
                cases hsol : select_one_level sc
                    (addLog s (.remoteFetch (lk.get_current_select_to level)))
                    (first :: rest) d lk level with
                | error es =>
                  obtain ⟨e, serr⟩ := es
                  simp only [hsol]
                  have hm := fun (j : Nat) (d' : Descriptor) =>
                    sol_mono sc (addLog s (.remoteFetch (lk.get_current_select_to level)))
                      (first :: rest) d d' lk level j
                  have hl := sol_length sc
                    (addLog s (.remoteFetch (lk.get_current_select_to level)))
                    (first :: rest) d lk level
                  have hcl := fun (j : Nat) =>
                    sol_cls sc (addLog s (.remoteFetch (lk.get_current_select_to level)))
                      (first :: rest) d lk level j
                  rw [hsol] at hm hl hcl
                  exact ⟨fun j d' hj h => hm j d' hj h, hl, fun j hj => hcl j hj⟩
                | ok pr =>
                  obtain ⟨allRel, s2⟩ := pr
                  simp only [hsol, stepSt]
                  have hm := fun (j : Nat) (d' : Descriptor) =>
                    sol_mono sc (addLog s (.remoteFetch (lk.get_current_select_to level)))
                      (first :: rest) d d' lk level j
                  have hl := sol_length sc
                    (addLog s (.remoteFetch (lk.get_current_select_to level)))
                    (first :: rest) d lk level
                  have hcl := fun (j : Nat) =>
                    sol_cls sc (addLog s (.remoteFetch (lk.get_current_select_to level)))
                      (first :: rest) d lk level j
                  rw [hsol] at hm hl hcl
                  have hheq := stepFolPost_heap d (lk.get_current_select_to level) allRel s2
                  refine ⟨?_, ?_, ?_⟩
                  · intro j d' hj h
                    rw [is_cached_heap_eq _ s2 hheq]
                    exact hm j d' hj h
                  · show s.heap.length ≤ (stepFolPost d (lk.get_current_select_to level)
                      allRel s2).heap.length
                    rw [hheq]
                    exact hl
                  · intro j hj
                    rw [obj_heap_eq _ s2 hheq]
                    exact hcl j hj

theorem walkLevels_mono (sc : Schema) (lk : SelectAPIRelated) (attrs : List String) :
    ∀ (level : Nat) (objs : List Nat) (s s1 : St),
    walkLevels sc lk attrs level objs s = .ok s1 →
    (∀ (j : Nat) (d' : Descriptor), j < s.heap.length → is_cached s j d' = true →
      is_cached s1 j d' = true) ∧
    s.heap.length ≤ s1.heap.length ∧
    (∀ j, j < s.heap.length → (s1.obj j).cls = (s.obj j).cls) := by
  induction attrs with
  | nil =>
    intro level objs s s1 hok
    cases hok
    exact ⟨fun j d' _ h => h, Nat.le_refl _, fun j _ => rfl⟩
  | cons t rest ih =>
    intro level objs s s1 hok
    have hstep := levelStep_state_mono sc lk t rest.isEmpty level objs s
    rw [walkLevels] at hok
    cases hls : levelStep sc lk t rest.isEmpty level objs s with
    | error es =>
      rw [hls] at hok
      cases hok
    | ok out =>
      rw [hls] at hok hstep
      cases out with
      | halt s' =>
        cases hok
        exact hstep
      | next objs2 s' =>
        rw [show stepSt (Except.ok (StepOut.next objs2 s')) = s' from rfl] at hstep
        have hrec := ih (level + 1) objs2 s' s1 hok
        refine ⟨?_, ?_, ?_⟩
        · intro j d' hj h
          exact hrec.1 j d' (by have := hstep.2.1; omega) (hstep.1 j d' hj h)
        · have := hstep.2.1
          have := hrec.2.1
          omega
        · intro j hj
          rw [hrec.2.2 j (by have := hstep.2.1; omega)]
          exact hstep.2.2 j hj

theorem processLookup_mono (sc : Schema) (roots : List Nat) (s : St)
    (lk : SelectAPIRelated) (s1 : St)
    (hok : processLookup sc roots s lk = .ok s1) :
    (∀ (j : Nat) (d' : Descriptor), j < s.heap.length → is_cached s j d' = true →
      is_cached s1 j d' = true) ∧
    s.heap.length ≤ s1.heap.length ∧
    (∀ j, j < s.heap.length → (s1.obj j).cls = (s.obj j).cls) := by
  rw [processLookup] at hok
  cases hfind : assocFind s.done lk.select_to with
  | some v =>
    rw [hfind] at hok
    cases hok
    exact ⟨fun j d' _ h => h, Nat.le_refl _, fun j _ => rfl⟩
  | none =>
    rw [hfind] at hok
    exact walkLevels_mono sc lk (splitSep lk.select_through) 0 roots s s1 hok

theorem selectLoop_mono (sc : Schema) (roots : List Nat)
    (lks : List SelectAPIRelated) :
    ∀ (s s1 : St), selectLoop sc roots lks s = .ok s1 →
    (∀ (j : Nat) (d' : Descriptor), j < s.heap.length → is_cached s j d' = true →
      is_cached s1 j d' = true) ∧
    s.heap.length ≤ s1.heap.length ∧
    (∀ j, j < s.heap.length → (s1.obj j).cls = (s.obj j).cls) := by
  induction lks with
  | nil =>
    intro s s1 hok
    cases hok
    exact ⟨fun j d' _ h => h, Nat.le_refl _, fun j _ => rfl⟩
  | cons lk rest ih =>
    intro s s1 hok
    rw [selectLoop] at hok
    cases hpl : processLookup sc roots s lk with
    | error es =>
      rw [hpl] at hok
      cases hok
    | ok s' =>
      rw [hpl] at hok
      have hfst := processLookup_mono sc roots s lk s' hpl
      have hrec := ih s' s1 hok
      refine ⟨?_, ?_, ?_⟩
      · intro j d' hj h
        exact hrec.1 j d' (by have := hfst.2.1; omega) (hfst.1 j d' hj h)
      · have := hfst.2.1
        have := hrec.2.1
        omega
      · intro j hj
        rw [hrec.2.2 j (by have := hfst.2.1; omega)]
        exact hfst.2.2 j hj


/-! ### Single-segment lookups: analysis of one processLookup -/

theorem joinSep_single (x : String) : joinSep [x] = x := rfl

theorem get_current_select_to_single (lk : SelectAPIRelated)
    (hflat1 : splitSep lk.select_to = [lk.select_to]) :
    lk.get_current_select_to 0 = lk.select_to := by
  rw [SelectAPIRelated.get_current_select_to, hflat1]
  rfl

theorem walkLevels_single_eq (sc : Schema) (lk : SelectAPIRelated) (t : String)
    (level : Nat) (objs : List Nat) (s : St) :
    walkLevels sc lk [t] level objs s
      = (match levelStep sc lk t true level objs s with
         | .error es => .error es
         | .ok (.halt s') => .ok s'
         | .ok (.next objs2 s') => .ok s') := by
  rw [walkLevels]
  simp only [List.isEmpty_nil]
  cases levelStep sc lk t true level objs s with
  | error es => rfl
  | ok out =>
    cases out with
    | halt s' => rfl
    | next objs2 s' => rfl

theorem levelStep_invalid (sc : Schema) (lk : SelectAPIRelated) (t : String)
    (last : Bool) (level : Nat) (first : Nat) (rest : List Nat) (s : St)
    (something : Option Descriptor) (b : Bool)
    (hsel : assocFind s.done (lk.get_current_select_to level) = Option.none)
    (hgs : get_something_can_do_select_api sc s first t
        ((lk.get_current_to_attr level).1) = .ok (something, false, b)) :
    levelStep sc lk t last level (first :: rest) s = .error (.invalidPath, s) := by
  simp only [levelStep, hsel, hgs]
  simp

theorem assocFind_append_single {α : Type} (l : List (String × α)) (k0 : String)
    (v0 : α) (k : String) (v : α)
    (h : assocFind (l ++ [(k0, v0)]) k = some v) :
    assocFind l k = some v ∨ k = k0 := by
  cases hl : assocFind l k with
  | some w =>
    rw [assocFind_append_left _ _ _ _ hl] at h
    exact Or.inl h
  | none =>
    rw [assocFind_append_right _ _ _ hl] at h
    by_cases hk : k0 = k
    · exact Or.inr hk.symm
    · rw [assocFind, if_neg hk, assocFind] at h
      cases h

theorem stepFolPost_done_cases (d : Descriptor) (sel : String) (allRel : List Nat)
    (s2 : St) :
    (stepFolPost d sel allRel s2).done = s2.done ∨
    (stepFolPost d sel allRel s2).done = s2.done ++ [(sel, allRel)] := by
  rw [stepFolPost]
  by_cases h : d.did ∈ s2.followed
  · simp only [if_pos h]
    exact Or.inl trivial
  · simp only [if_neg h]
    exact Or.inr trivial

theorem processLookup_single_classify (sc : Schema) (lk : SelectAPIRelated)
    (r : Nat) (rs : List Nat) (s s' : St) (t : String)
    (hsplit : splitSep lk.select_through = [t])
    (hflat1 : splitSep lk.select_to = [lk.select_to])
    (hfind : assocFind s.done lk.select_to = Option.none)
    (hok : processLookup sc (r :: rs) s lk = .ok s') :
    ∃ d, sc.class_attr (s.obj r).cls t = some (.remote d) ∧
      ¬ (t = (lk.get_current_to_attr 0).1) := by
  rw [processLookup, hfind, hsplit, walkLevels_single_eq] at hok
  have hsel0 : assocFind s.done (lk.get_current_select_to 0) = Option.none := by
    rw [get_current_select_to_single lk hflat1]
    exact hfind
  cases hcls : sc.class_attr (s.obj r).cls t with
  | none =>
    cases hfound : (assocFind (s.obj r).attrs t).isSome with
    | false =>
      have hgs : get_something_can_do_select_api sc s r t
          ((lk.get_current_to_attr 0).1) = .ok (Option.none, false, false) := by
        simp only [get_something_can_do_select_api, hcls, hfound]
      rw [levelStep_invalid sc lk t true 0 r rs s Option.none false hsel0 hgs] at hok
      simp at hok
    | true =>
      have hgs : get_something_can_do_select_api sc s r t
          ((lk.get_current_to_attr 0).1) = .ok (Option.none, true, false) := by
        simp only [get_something_can_do_select_api, hcls, hfound]
      rw [levelStep_unsupported sc lk t 0 r rs s false hsel0 hgs] at hok
      simp at hok
  | some ca =>
    cases ca with
    | plain =>
      have hgs : get_something_can_do_select_api sc s r t
          ((lk.get_current_to_attr 0).1) = .ok (Option.none, true, false) := by
        simp only [get_something_can_do_select_api, hcls]
      rw [levelStep_unsupported sc lk t 0 r rs s false hsel0 hgs] at hok
      simp at hok
    | remote d =>
      by_cases heq : t = (lk.get_current_to_attr 0).1
      · rw [levelStep_ambiguous sc lk t true 0 r rs s d hsel0 hcls heq] at hok
        simp at hok
      · exact ⟨d, rfl, heq⟩

theorem processLookup_single_remote (sc : Schema) (lk : SelectAPIRelated)
    (r : Nat) (rs : List Nat) (s s' : St) (t : String) (d : Descriptor)
    (hsplit : splitSep lk.select_through = [t])
    (hflat1 : splitSep lk.select_to = [lk.select_to])
    (hfind : assocFind s.done lk.select_to = Option.none)
    (hcls : sc.class_attr (s.obj r).cls t = some (.remote d))
    (hne : ¬ (t = (lk.get_current_to_attr 0).1))
    (hr : r < s.heap.length)
    (hok : processLookup sc (r :: rs) s lk = .ok s') :
    is_cached s' r d = true ∧
    r < s'.heap.length ∧
    (s'.obj r).cls = (s.obj r).cls ∧
    (∀ (k : String) (v : List Nat), assocFind s'.done k = some v →
      assocFind s.done k = some v ∨ k = lk.select_to) := by
  rw [processLookup, hfind, hsplit, walkLevels_single_eq] at hok
  have hsel0 : assocFind s.done (lk.get_current_select_to 0) = Option.none := by
    rw [get_current_select_to_single lk hflat1]
    exact hfind
  cases hcache : is_cached s r d with
  | true =>
    rw [levelStep_cacheRead sc lk t true 0 r rs s d hsel0 hcls hne hcache] at hok
    have hs' : addLog s (.cacheRead (lk.get_current_select_to 0)) = s' :=
      Except.ok.inj hok
    rw [← hs']
    exact ⟨hcache, hr, rfl, fun k v hkv => Or.inl hkv⟩
  | false =>
    rw [levelStep_fetch_eq sc lk t true 0 r rs s d hsel0 hcls hne hcache] at hok
    cases hsol : select_one_level sc
        (addLog s (.remoteFetch (lk.get_current_select_to 0)))
        (r :: rs) d lk 0 with
    | error es =>
      rw [hsol] at hok
      simp at hok
    | ok pr =>
      obtain ⟨allRel, s2⟩ := pr
      rw [hsol] at hok
      have hs' : stepFolPost d (lk.get_current_select_to 0) allRel s2 = s' :=
        Except.ok.inj hok
      have hc2 : is_cached s2 r d = true :=
        select_one_level_ok_all_cached sc
          (addLog s (.remoteFetch (lk.get_current_select_to 0))) (r :: rs) d lk 0
          allRel s2 r (by simp) hr hsol
      have hheq := stepFolPost_heap d (lk.get_current_select_to 0) allRel s2
      have hl := sol_length sc (addLog s (.remoteFetch (lk.get_current_select_to 0)))
        (r :: rs) d lk 0
      have hcl := sol_cls sc (addLog s (.remoteFetch (lk.get_current_select_to 0)))
        (r :: rs) d lk 0 r hr
      have hdn := sol_done sc (addLog s (.remoteFetch (lk.get_current_select_to 0)))
        (r :: rs) d lk 0
      rw [hsol] at hl hcl hdn
      have hlen0 : (addLog s (.remoteFetch (lk.get_current_select_to 0))).heap.length
          = s.heap.length := rfl
      rw [hlen0] at hl
      rw [show solSt (.ok (allRel, s2)) = s2 from rfl] at hl hcl hdn
      have hs2done : s2.done = s.done := hdn
      rw [← hs']
      refine ⟨?_, ?_, ?_, ?_⟩
      · rw [is_cached_heap_eq _ s2 hheq]
        exact hc2
      · show r < (stepFolPost d (lk.get_current_select_to 0) allRel s2).heap.length
        rw [hheq]
        omega
      · rw [obj_heap_eq _ s2 hheq]
        exact hcl
      · intro k v hkv
        rcases stepFolPost_done_cases d (lk.get_current_select_to 0) allRel s2 with
          hdc | hdc
        · rw [hdc, hs2done] at hkv
          exact Or.inl hkv
        · rw [hdc, hs2done] at hkv
          rcases assocFind_append_single s.done _ _ k v hkv with h | h
          · exact Or.inl h
          · right
            rw [h, get_current_select_to_single lk hflat1]


theorem fetchCount_snoc_nonfetch (l : List Event) (e : Event)
    (h : isFetchEvent e = false) : fetchCount (l ++ [e]) = fetchCount l := by
  simp [fetchCount, List.filter_append, h]

theorem c6_phaseA (sc : Schema) (r : Nat) (rs : List Nat) (c : Nat) :
    ∀ (lks : List SelectAPIRelated) (s : St) (banned : List String),
    (∀ (k : String) (v : List Nat), assocFind s.done k = some v → k ∈ banned) →
    (∀ lk ∈ lks, lk.select_to ∉ banned) →
    (lks.map SelectAPIRelated.select_to).Nodup →
    (∀ lk ∈ lks, ∃ t, splitSep lk.select_through = [t]) →
    (∀ lk ∈ lks, splitSep lk.select_to = [lk.select_to]) →
    r < s.heap.length →
    (s.obj r).cls = c →
    ∀ s1, selectLoop sc (r :: rs) lks s = .ok s1 →
    (∀ lk ∈ lks, ∀ t, splitSep lk.select_through = [t] →
      ∃ d, sc.class_attr c t = some (.remote d) ∧
        ¬ (t = (lk.get_current_to_attr 0).1) ∧ is_cached s1 r d = true) ∧
    (∀ (k : String) (v : List Nat), assocFind s1.done k = some v →
      k ∈ banned ++ lks.map SelectAPIRelated.select_to) ∧
    r < s1.heap.length ∧ (s1.obj r).cls = c := by
  intro lks
  induction lks with
  | nil =>
    intro s banned hdone hnotb hnd hsingle hflat hr hclsr s1 hok
    cases hok
    refine ⟨fun lk hlk => absurd hlk (List.not_mem_nil lk), ?_, hr, hclsr⟩
    intro k v hkv
    simpa using hdone k v hkv
  | cons lk rest ih =>
    intro s banned hdone hnotb hnd hsingle hflat hr hclsr s1 hok
    rw [selectLoop] at hok
    cases hpl : processLookup sc (r :: rs) s lk with
    | error es =>
      rw [hpl] at hok
      cases hok
    | ok s' =>
      rw [hpl] at hok
      obtain ⟨t, hsplit⟩ := hsingle lk (by simp)
      have hflat1 := hflat lk (by simp)
      cases hfind : assocFind s.done lk.select_to with
      | some v => exact absurd (hdone _ _ hfind) (hnotb lk (by simp))
      | none =>
        obtain ⟨d, hclsd, hne⟩ :=
          processLookup_single_classify sc lk r rs s s' t hsplit hflat1 hfind hpl
        obtain ⟨hcached', hr', hcls', hdone'⟩ :=
          processLookup_single_remote sc lk r rs s s' t d hsplit hflat1 hfind hclsd
            hne hr hpl
        have hndc : lk.select_to ∉ rest.map SelectAPIRelated.select_to ∧
            (rest.map SelectAPIRelated.select_to).Nodup := by
          have := hnd
          rw [List.map_cons] at this
          exact List.nodup_cons.mp this
        have hdoneIH : ∀ (k : String) (v : List Nat), assocFind s'.done k = some v →
            k ∈ banned ++ [lk.select_to] := by
          intro k v hkv
          rcases hdone' k v hkv with h | h
          · exact List.mem_append.mpr (Or.inl (hdone k v h))
          · exact List.mem_append.mpr (Or.inr (by simp [h]))
        have hnotbIH : ∀ lk' ∈ rest, lk'.select_to ∉ banned ++ [lk.select_to] := by
          intro lk' hlk' hmem
          rcases List.mem_append.mp hmem with h | h
          · exact hnotb lk' (by simp [hlk']) h
          · have heq2 : lk'.select_to = lk.select_to := by simpa using h
            exact hndc.1 (heq2 ▸ List.mem_map_of_mem SelectAPIRelated.select_to hlk')
        have hclsr' : (s'.obj r).cls = c := by rw [hcls', hclsr]
        have hrec := ih s' (banned ++ [lk.select_to]) hdoneIH hnotbIH hndc.2
          (fun lk' h => hsingle lk' (by simp [h]))
          (fun lk' h => hflat lk' (by simp [h])) hr' hclsr' s1 hok
        refine ⟨?_, ?_, hrec.2.2.1, hrec.2.2.2⟩
        · intro lk' hlk' t' hsplit'
          rcases List.mem_cons.mp hlk' with he | hm
          · subst he
            rw [hsplit] at hsplit'
            have ht : t = t' := by
              injection hsplit' with h1 h2
            subst ht
            rw [hclsr] at hclsd
            refine ⟨d, hclsd, hne, ?_⟩
            exact (selectLoop_mono sc (r :: rs) rest s' s1 hok).1 r d hr' hcached'
          · exact hrec.1 lk' hm t' hsplit'
        · intro k v hkv
          have hk := hrec.2.1 k v hkv
          rcases List.mem_append.mp hk with h | h
          · rcases List.mem_append.mp h with h1 | h1
            · exact List.mem_append.mpr (Or.inl h1)
            · refine List.mem_append.mpr (Or.inr ?_)
              rw [List.map_cons]
              simp at h1
              simp [h1]
          · refine List.mem_append.mpr (Or.inr ?_)
            rw [List.map_cons]
            exact List.mem_cons.mpr (Or.inr h)

theorem c6_phaseB (sc : Schema) (r : Nat) (rs : List Nat) (c : Nat) :
    ∀ (lks : List SelectAPIRelated) (s : St),
    s.done = [] →
    (s.obj r).cls = c →
    (∀ lk ∈ lks, ∀ t, splitSep lk.select_through = [t] →
      ∃ d, sc.class_attr c t = some (.remote d) ∧
        ¬ (t = (lk.get_current_to_attr 0).1) ∧ is_cached s r d = true) →
    (∀ lk ∈ lks, ∃ t, splitSep lk.select_through = [t]) →
    ∃ s2, selectLoop sc (r :: rs) lks s = .ok s2 ∧ s2.heap = s.heap ∧
      s2.done = s.done ∧ fetchCount s2.log = fetchCount s.log := by
  intro lks
  induction lks with
  | nil =>
    intro s _ _ _ _
    exact ⟨s, rfl, rfl, rfl, rfl⟩
  | cons lk rest ih =>
    intro s hdone hclsr hfacts hsingle
    obtain ⟨t, hsplit⟩ := hsingle lk (by simp)
    obtain ⟨d, hclsd, hne, hcached⟩ := hfacts lk (by simp) t hsplit
    have hfind : assocFind s.done lk.select_to = Option.none := by
      rw [hdone]
      rfl
    have hsel0 : assocFind s.done (lk.get_current_select_to 0) = Option.none := by
      rw [hdone]
      rfl
    have hclsd' : sc.class_attr (s.obj r).cls t = some (.remote d) := by
      rw [hclsr]
      exact hclsd
    have hstep := levelStep_cacheRead sc lk t true 0 r rs s d hsel0 hclsd' hne hcached
    have hpl : processLookup sc (r :: rs) s lk
        = .ok (addLog s (.cacheRead (lk.get_current_select_to 0))) := by
      rw [processLookup, hfind, hsplit, walkLevels_single_eq, hstep]
    have hdone1 : (addLog s (.cacheRead (lk.get_current_select_to 0))).done = [] := hdone
    have hcls1 : ((addLog s (.cacheRead (lk.get_current_select_to 0))).obj r).cls = c :=
      hclsr
    have hfacts1 : ∀ lk' ∈ rest, ∀ t', splitSep lk'.select_through = [t'] →
        ∃ d', sc.class_attr c t' = some (.remote d') ∧
          ¬ (t' = (lk'.get_current_to_attr 0).1) ∧
          is_cached (addLog s (.cacheRead (lk.get_current_select_to 0))) r d' = true := by
      intro lk' h t' ht'
      exact hfacts lk' (by simp [h]) t' ht'
    obtain ⟨s2, hloop, hheap, hdone2, hfc⟩ :=
      ih (addLog s (.cacheRead (lk.get_current_select_to 0))) hdone1 hcls1 hfacts1
        (fun lk' h => hsingle lk' (by simp [h]))
    refine ⟨s2, ?_, ?_, ?_, ?_⟩
    · simp only [selectLoop, hpl]
      exact hloop
    · rw [hheap]
      rfl
    · rw [hdone2, hdone1, hdone]
    · rw [hfc]
      show fetchCount (s.log ++ [Event.cacheRead (lk.get_current_select_to 0)])
        = fetchCount s.log
      exact fetchCount_snoc_nonfetch s.log _ rfl


/-- C6 (counterexample): two lookups with the same `select_to` over the same
record collection: the first resolve fetches only the first lookup and the
`select_to` dedup skips the second, so resolving a second time with the same
lookups issues a further remote fetch (one batch call) rather than zero. -/
theorem c6_counterexample :
    resOk c6run1 = true ∧ c6lkA.select_to = c6lkB.select_to ∧
    resOk c6run2 = true ∧
    fetchCount ((resSt c6run2).log.drop (resSt c6run1).log.length) = 1 := by
  decide

/-- C6: calling the resolve operation a second time with identical lookups over
the same record collection issues zero additional remote fetch calls — amended:
this holds for single-segment lookups whose destination names contain no
separator and whose `select_to` keys are pairwise distinct (a successful first
call then leaves every requested binding cached, and the second call reads only
caches, keeping the fetch count unchanged); as stated for arbitrary identical
lookup lists the claim is false, because a lookup skipped by the `select_to`
dedup in the first call is left uncached and fetches on the second call. -/
theorem c6_second_resolve_no_fetch (sc : Schema) (s : St) (r : Nat) (rs : List Nat)
    (lookups : List SelectAPIRelated) (s1 : St)
    (hsingle : ∀ lk ∈ lookups, ∃ t, splitSep lk.select_through = [t])
    (hflat : ∀ lk ∈ lookups, splitSep lk.select_to = [lk.select_to])
    (hdistinct : (lookups.map SelectAPIRelated.select_to).Nodup)
    (hroot : r < s.heap.length)
    (hrun1 : select_related_api_objects sc s (r :: rs) lookups = .ok s1) :
    ∃ s2, select_related_api_objects sc s1 (r :: rs) lookups = .ok s2 ∧
      fetchCount s2.log = fetchCount s1.log := by
  have hne : ¬ (r :: rs = ([] : List Nat)) := by simp
  rw [select_related_api_objects, if_neg hne] at hrun1
  have hA := c6_phaseA sc r rs ((s.obj r).cls) lookups
    { s with done := [], followed := [] } []
    (fun k v hkv => Option.noConfusion hkv)
    (fun lk _ => List.not_mem_nil lk.select_to)
    hdistinct hsingle hflat hroot rfl s1 hrun1
  obtain ⟨hfacts, _, hlen1, hcls1⟩ := hA
  have hB := c6_phaseB sc r rs ((s.obj r).cls) lookups
    { s1 with done := [], followed := [] } rfl hcls1
    (fun lk h t ht => hfacts lk h t ht) hsingle
  obtain ⟨s2, hloop, _, _, hfc⟩ := hB
  refine ⟨s2, ?_, hfc⟩
  rw [select_related_api_objects, if_neg hne]
  exact hloop


theorem c6_second_resolve_no_fetch_witness :
    ∃ s2, select_related_api_objects c6sc (resSt c6wrun1) [0] [c6lkA, c6wlkB]
        = .ok s2 ∧
      fetchCount s2.log = fetchCount (resSt c6wrun1).log := by
  refine c6_second_resolve_no_fetch c6sc c6st 0 [] [c6lkA, c6wlkB] (resSt c6wrun1)
    ?_ ?_ (by decide) (by decide) rfl
  · intro lk hlk
    simp only [List.mem_cons, List.mem_singleton] at hlk
    rcases hlk with h | h
    · subst h
      exact ⟨"a", by decide⟩
    · rcases h with h | h
      · subst h
        exact ⟨"b", by decide⟩
      · exact absurd h (List.not_mem_nil lk)
  · intro lk hlk
    simp only [List.mem_cons, List.mem_singleton] at hlk
    rcases hlk with h | h
    · subst h
      decide
    · rcases h with h | h
      · subst h
        decide
      · exact absurd h (List.not_mem_nil lk)

end DQE
